import Mathlib

/-!
# RSFS: a shallow embedding of `RSFS/api.c`

The engine state of the in-memory file system (block arena, inode table, flat
directory, open-file table) is an explicit record that every API call threads
through.  C `int`s are `Int`; `/` and `%` are the truncating `Int.tdiv` and
`Int.tmod`.  Every access the C program performs outside an object (an array
index out of range, a `memcpy` past the end of a block, a dereference of a
`NULL` directory pointer) is undefined behaviour and is reported as a `Fault`.
Loops carry a fuel argument; running out of fuel is the fault `out_of_fuel`.
-/

namespace RSFS

/-! ## Configuration and data model -/

/-- The capacities and flag values that `def.h` defines (`def.h` is not among
the sources, so they are parameters of the development). -/
structure Config where
  BLOCK_SIZE : Nat
  NUM_DBLOCKS : Nat
  NUM_INODES : Nat
  NUM_POINTER : Nat
  NUM_OPEN_FILE : Nat
  RSFS_RDONLY : Int
  RSFS_RDWR : Int
  deriving DecidableEq, Repr

/-- The largest value of a C `int`. -/
def INT_MAX : Int := 2147483647

/-- Ways in which a call leaves defined behaviour, or fails to return. -/
inductive Fault where
  /-- the directory-entry pointer that is dereferenced is `NULL` -/
  | null_deref
  /-- the directory-entry pointer that is dereferenced is not a live entry -/
  | dangling_deref (addr : Nat)
  /-- `open_file_table[fd]` outside the table -/
  | fd_index (fd : Int)
  /-- `inodes[i]` outside the inode table -/
  | inode_index (i : Int)
  /-- `inode->block[i]` outside the pointer array -/
  | pointer_index (i : Int)
  /-- `data_blocks[b]` or `data_bitmap[b]` outside the arena -/
  | block_index (b : Int)
  /-- an access of `n` bytes at `offset` that leaves block `b` -/
  | block_overrun (b offset n : Int)
  /-- an access of `n` bytes at `start` that leaves the caller buffer -/
  | buffer_overrun (start n : Int)
  /-- signed overflow of an `int` addition -/
  | int_overflow
  /-- `pthread_mutex_lock` on a mutex that is held: the caller waits -/
  | would_block
  /-- the loop was still running when the fuel was used up -/
  | out_of_fuel
  deriving DecidableEq, Repr

/-- The record `struct inode`: length, direct pointers (`-1` is unused), the
reader count and whether `rw_mutex` is held. -/
structure inode where
  length : Int
  block : List Int
  num_current_reader : Int
  rw_mutex : Bool
  deriving DecidableEq, Repr

/-- The record `struct dir_entry`; `addr` stands for the address of the heap
node, which is what an open-file entry stores. -/
structure dir_entry where
  addr : Nat
  name : String
  inode_number : Int
  deriving DecidableEq, Repr

/-- The record `struct open_file_entry`. -/
structure open_file_entry where
  used : Int
  dir_entry : Option Nat
  position : Int
  access_flag : Int
  deriving DecidableEq, Repr

/-- The global variables of the engine. -/
structure State where
  data_blocks : List (List Nat)
  data_bitmap : List Int
  inode_bitmap : List Int
  inodes : List inode
  open_file_table : List open_file_entry
  root_dir : List dir_entry
  next_addr : Nat
  deriving DecidableEq, Repr

/-! ## Array access with C indices -/

/-- Element `i` of an array, `none` outside it. -/
def getAt {α : Type} (xs : List α) (i : Int) : Option α :=
  if i < 0 then none else xs[i.toNat]?

/-- The array with element `i` replaced (unchanged when `i` is outside). -/
def setAt {α : Type} (xs : List α) (i : Int) (v : α) : List α :=
  if i < 0 then xs else xs.set i.toNat v

/-- Read of `inodes[ino]`. -/
def load_inode (st : State) (ino : Int) : Except Fault inode :=
  match getAt st.inodes ino with
  | some node => .ok node
  | none => .error (.inode_index ino)

/-- Write of `inodes[ino]`. -/
def store_inode (st : State) (ino : Int) (node : inode) : State :=
  { st with inodes := setAt st.inodes ino node }

/-- Read of `inode->block[i]`. -/
def load_pointer (node : inode) (i : Int) : Except Fault Int :=
  match getAt node.block i with
  | some b => .ok b
  | none => .error (.pointer_index i)

/-- Read of `open_file_table[fd]`. -/
def load_entry (st : State) (fd : Int) : Except Fault open_file_entry :=
  match getAt st.open_file_table fd with
  | some e => .ok e
  | none => .error (.fd_index fd)

/-- Write of `open_file_table[fd]`. -/
def store_entry (st : State) (fd : Int) (e : open_file_entry) : State :=
  { st with open_file_table := setAt st.open_file_table fd e }

/-- Dereference of a `struct dir_entry *`. -/
def deref_dir (st : State) (p : Option Nat) : Except Fault dir_entry :=
  match p with
  | none => .error .null_deref
  | some a =>
    match st.root_dir.find? (fun d => d.addr == a) with
    | some d => .ok d
    | none => .error (.dangling_deref a)

/-- The effect of `memcpy(data_blocks[block] + offset, src, src.length)`. -/
def block_store (st : State) (block offset : Int) (src : List Nat) : Except Fault State :=
  match getAt st.data_blocks block with
  | none => .error (.block_index block)
  | some b =>
    if offset < 0 ∨ (b.length : Int) < offset + src.length then
      .error (.block_overrun block offset src.length)
    else
      let b1 := b.take offset.toNat ++ src ++ b.drop (offset.toNat + src.length)
      .ok { st with data_blocks := setAt st.data_blocks block b1 }

/-- The bytes read by `memcpy(dst, data_blocks[block] + offset, n)`. -/
def block_load (st : State) (block offset n : Int) : Except Fault (List Nat) :=
  match getAt st.data_blocks block with
  | none => .error (.block_index block)
  | some b =>
    if offset < 0 ∨ n < 0 ∨ (b.length : Int) < offset + n then
      .error (.block_overrun block offset n)
    else
      .ok ((b.drop offset.toNat).take n.toNat)

/-- The bytes read by `memcpy(dst, buf + start, n)` from a caller buffer. -/
def buf_load (buf : List Nat) (start n : Int) : Except Fault (List Nat) :=
  if start < 0 ∨ n < 0 ∨ (buf.length : Int) < start + n then
    .error (.buffer_overrun start n)
  else
    .ok ((buf.drop start.toNat).take n.toNat)

/-- The effect of `memset(data_blocks[block] + offset, 0, n)`. -/
def block_zero (st : State) (block offset n : Int) : Except Fault State :=
  if n < 0 then .error (.block_overrun block offset n)
  else block_store st block offset (List.replicate n.toNat 0)

/-! ## Helpers of the repository that are not among the sources -/

/-- Position of the first clear (`0`) bit of a bitmap. -/
def find_clear : List Int → Option Nat
  | [] => none
  | b :: bs => if b = 0 then some 0 else (find_clear bs).map (· + 1)

/-- Modelled from the spec: `allocate_data_block` of the block arena, which is
not among the sources.  It scans the bitmap for the first clear bit, sets it
and returns the position; exhaustion is the negative sentinel `-1`. -/
def allocate_data_block (st : State) : State × Int :=
  match find_clear st.data_bitmap with
  | some i => ({ st with data_bitmap := st.data_bitmap.set i 1 }, (i : Int))
  | none => (st, -1)

/-- Modelled from the spec: `free_data_block` of the block arena, which is not
among the sources.  It zeroes the underlying buffer and clears the bit. -/
def free_data_block (st : State) (block : Int) : Except Fault State :=
  match getAt st.data_bitmap block, getAt st.data_blocks block with
  | some _, some b =>
    .ok { st with data_bitmap := setAt st.data_bitmap block 0,
                  data_blocks := setAt st.data_blocks block (List.replicate b.length 0) }
  | _, _ => .error (.block_index block)

/-- Modelled from the spec: `allocate_inode` of the inode table, which is not
among the sources.  It scans the bitmap for the first clear bit, sets it and
returns the position; exhaustion is the negative sentinel `-1`. -/
def allocate_inode (st : State) : State × Int :=
  match find_clear st.inode_bitmap with
  | some i => ({ st with inode_bitmap := st.inode_bitmap.set i 1 }, (i : Int))
  | none => (st, -1)

/-- Modelled from the spec: `search_dir` of the directory, which is not among
the sources.  It is a linear scan by name; `none` is the `NULL` result. -/
def search_dir (st : State) (file_name : String) : Option dir_entry :=
  st.root_dir.find? (fun d => d.name == file_name)

/-- Modelled from the spec: `insert_dir` of the directory, which is not among
the sources.  It appends a new entry for the name at the tail and returns it;
the inode number of the new entry is not yet assigned (`-1`). -/
def insert_dir (st : State) (file_name : String) : State × dir_entry :=
  let d : dir_entry := { addr := st.next_addr, name := file_name, inode_number := -1 }
  ({ st with root_dir := st.root_dir ++ [d], next_addr := st.next_addr + 1 }, d)

/-- The assignment `dir_entry->inode_number = n` through a pointer. -/
def set_inode_number (st : State) (addr : Nat) (n : Int) : State :=
  let assign (d : dir_entry) : dir_entry :=
    if d.addr = addr then { d with inode_number := n } else d
  { st with root_dir := st.root_dir.map assign }

/-- Position of the first slot of the open-file table with `used == 0`. -/
def find_unused : List open_file_entry → Option Nat
  | [] => none
  | e :: es => if e.used = 0 then some 0 else (find_unused es).map (· + 1)

/-- Modelled from the spec: `allocate_open_file_entry` of the open-file table,
which is not among the sources.  It scans for the first unused slot, marks it
used, stores the access mode, binds the directory entry and zeroes the cursor;
exhaustion is the negative sentinel `-1`. -/
def allocate_open_file_entry (st : State) (access_flag : Int) (dir : dir_entry) :
    State × Int :=
  match find_unused st.open_file_table with
  | some i =>
    let e : open_file_entry :=
      { used := 1, dir_entry := some dir.addr, position := 0, access_flag := access_flag }
    ({ st with open_file_table := st.open_file_table.set i e }, (i : Int))
  | none => (st, -1)

/-! ## The API of `api.c` -/

/-- `RSFS_init`, with `heap i j` the byte that `malloc` happens to leave at
offset `j` of block `i`.  The loop over the open-file table assigns to a local
copy of each entry, so the table keeps the zero values of a C global. -/
def RSFS_init (cfg : Config) (heap : Nat → Nat → Nat) : State :=
  { data_blocks := (List.range cfg.NUM_DBLOCKS).map
      (fun i => (List.range cfg.BLOCK_SIZE).map (heap i)),
    data_bitmap := List.replicate cfg.NUM_DBLOCKS 0,
    inode_bitmap := List.replicate cfg.NUM_INODES 0,
    inodes := List.replicate cfg.NUM_INODES
      { length := 0, block := List.replicate cfg.NUM_POINTER (-1),
        num_current_reader := 0, rw_mutex := false },
    open_file_table := List.replicate cfg.NUM_OPEN_FILE
      { used := 0, dir_entry := none, position := 0, access_flag := 0 },
    root_dir := [],
    next_addr := 0 }

/-- `RSFS_create`: `-1` when the name exists; otherwise the entry is inserted
first and an inode is allocated after it, `-2` when there is none. -/
def RSFS_create (st : State) (file_name : String) : State × Int :=
  match search_dir st file_name with
  | some _ => (st, -1)
  | none =>
    let (st1, dir_entry) := insert_dir st file_name
    let (st2, inode_number) := allocate_inode st1
    if inode_number < 0 then (st2, -2)
    else (set_inode_number st2 dir_entry.addr inode_number, 0)

/-- `RSFS_open`.  A `pthread_mutex_lock` on a held `rw_mutex` is the fault
`would_block`; `read_mutex` is taken and released inside the call. -/
def RSFS_open (cfg : Config) (st : State) (file_name : String) (access_flag : Int) :
    Except Fault (State × Int) :=
  if access_flag ≠ cfg.RSFS_RDONLY ∧ access_flag ≠ cfg.RSFS_RDWR then .ok (st, -1)
  else
    match search_dir st file_name with
    | none => .error .null_deref
    | some dir => do
      let node ← load_inode st dir.inode_number
      let st1 ←
        if access_flag = cfg.RSFS_RDONLY then
          let n := node.num_current_reader + 1
          if n = 1 then
            if node.rw_mutex then Except.error Fault.would_block
            else pure (store_inode st dir.inode_number
                   { node with num_current_reader := n, rw_mutex := true })
          else pure (store_inode st dir.inode_number { node with num_current_reader := n })
        else
          if node.rw_mutex then Except.error Fault.would_block
          else pure (store_inode st dir.inode_number { node with rw_mutex := true })
      pure (allocate_open_file_entry st1 access_flag dir)

/-- Modelled from the spec: `free_open_file_entry` of the open-file table,
which is not among the sources.  It marks the slot unused. -/
def free_open_file_entry (st : State) (fd : Int) : State :=
  match getAt st.open_file_table fd with
  | some e => store_entry st fd { e with used := 0 }
  | none => st

/-- `RSFS_close`: a writer releases `rw_mutex`, the last reader releases it. -/
def RSFS_close (cfg : Config) (st : State) (fd : Int) : Except Fault (State × Int) :=
  if fd < 0 ∨ fd ≥ cfg.NUM_OPEN_FILE then .ok (st, -1)
  else do
    let entry ← load_entry st fd
    let dir_entry ← deref_dir st entry.dir_entry
    let node ← load_inode st dir_entry.inode_number
    let st1 :=
      if entry.access_flag = cfg.RSFS_RDWR then
        store_inode st dir_entry.inode_number { node with rw_mutex := false }
      else
        let n := node.num_current_reader - 1
        if n = 0 then
          store_inode st dir_entry.inode_number
            { node with num_current_reader := n, rw_mutex := false }
        else store_inode st dir_entry.inode_number { node with num_current_reader := n }
    pure (free_open_file_entry st1 fd, 0)

/-- `RSFS_fseek`. -/
def RSFS_fseek (cfg : Config) (st : State) (fd offset : Int) : Except Fault (State × Int) :=
  if fd < 0 ∨ fd ≥ cfg.NUM_OPEN_FILE then .ok (st, -1)
  else do
    let entry ← load_entry st fd
    let current_position := entry.position
    let dir_entry ← deref_dir st entry.dir_entry
    let node ← load_inode st dir_entry.inode_number
    if offset < 0 ∨ offset > node.length then pure (st, current_position)
    else pure (store_entry st fd { entry with position := offset }, offset)

/-! ## The data path -/

/-- The number of bytes the copy loop of `RSFS_append`, `RSFS_write` and
`RSFS_cut` moves in one iteration: it starts as `size`, becomes the bytes left
when the block has more room than that, and the room when the block has less. -/
def bytes_to_write (size space_available bytes_written : Int) : Int :=
  let b0 := size
  let b1 := if space_available > size - bytes_written then size - bytes_written else b0
  if space_available < size - bytes_written then space_available else b1

/-- A C `while` loop over the variables `σ`: `cond` is the loop condition and
`body` one iteration.  Each iteration entered uses one unit of fuel. -/
def while_loop {σ : Type} (cond : σ → Prop) [DecidablePred cond]
    (body : σ → Except Fault σ) : Nat → σ → Except Fault σ
  | 0, s => if cond s then .error .out_of_fuel else .ok s
  | fuel + 1, s => if cond s then (body s).bind (while_loop cond body fuel) else .ok s

/-- One iteration of the copy loop `while (bytes_written < size)` of
`RSFS_append` (lines 169-206), which `RSFS_write` (484-517) and `RSFS_cut`
(586-613) repeat.  The variables are the engine state, `current_position` and
`bytes_written`. -/
def copy_body (cfg : Config) (ino : Int) (buf : List Nat) (size : Int) :
    State × Int × Int → Except Fault (State × Int × Int)
  | (st, current_position, bytes_written) => do
    let block_position := current_position.tdiv cfg.BLOCK_SIZE
    let offset := current_position.tmod cfg.BLOCK_SIZE
    let node ← load_inode st ino
    let block0 ← load_pointer node block_position
    let (st1, block) :=
      if block0 = -1 then
        let (sa, b) := allocate_data_block st
        (store_inode sa ino { node with block := setAt node.block block_position b }, b)
      else (st, block0)
    let space_available := (cfg.BLOCK_SIZE : Int) - offset
    let n := bytes_to_write size space_available bytes_written
    let src ← buf_load buf bytes_written n
    let st2 ← block_store st1 block offset src
    let bytes_written := bytes_written + n
    let current_position := current_position + n
    let node2 ← load_inode st2 ino
    let st3 :=
      if current_position > node2.length then
        store_inode st2 ino { node2 with length := current_position }
      else st2
    pure (st3, current_position, bytes_written)

/-- The copy loop `while (bytes_written < size)`. -/
def copy_loop (cfg : Config) (ino : Int) (buf : List Nat) (size : Int) (fuel : Nat)
    (st : State) (current_position bytes_written : Int) : Except Fault (State × Int × Int) :=
  while_loop (fun v : State × Int × Int => v.2.2 < size) (copy_body cfg ino buf size) fuel
    (st, current_position, bytes_written)

/-- One iteration of the loop `while (remove_from < remove_to)` of `RSFS_write`
(lines 469-478), which `RSFS_cut` repeats (616-624): zero from the position to
the end of its block, release the block when the position is at its start.
The variables are the engine state and the position. -/
def zero_body (cfg : Config) (ino : Int) : State × Int → Except Fault (State × Int)
  | (st, pos) => do
    let node ← load_inode st ino
    let block ← load_pointer node (pos.tdiv cfg.BLOCK_SIZE)
    let offset := pos.tmod cfg.BLOCK_SIZE
    let st1 ← block_zero st block offset ((cfg.BLOCK_SIZE : Int) - offset)
    let st2 ← if offset = 0 then free_data_block st1 block else pure st1
    pure (st2, pos + ((cfg.BLOCK_SIZE : Int) - offset))

/-- The loop `while (pos < stop)` that zeroes and releases. -/
def zero_loop (cfg : Config) (ino : Int) (stop : Int) (fuel : Nat) (st : State) (pos : Int) :
    Except Fault (State × Int) :=
  while_loop (fun v : State × Int => v.2 < stop) (zero_body cfg ino) fuel (st, pos)

/-- The variables of the loop of `RSFS_read`: what has been copied to the
caller buffer, `current_position`, `bytes_read`, and whether `break` was taken. -/
structure read_vars where
  out : List Nat
  current_position : Int
  bytes_read : Int
  stopped : Bool
  deriving DecidableEq, Repr

/-- One iteration of the loop of `RSFS_read` (lines 287-313); `node` is the
inode of the file, which the call does not change. -/
def read_body (cfg : Config) (st : State) (node : inode) (size : Int) :
    read_vars → Except Fault read_vars
  | v => do
    let block_position := v.current_position.tdiv cfg.BLOCK_SIZE
    let offset := v.current_position.tmod cfg.BLOCK_SIZE
    let block ← load_pointer node block_position
    if block = -1 then pure { v with stopped := true }
    else
      let n0 := size - v.bytes_read
      let n1 :=
        if n0 > (cfg.BLOCK_SIZE : Int) - offset then (cfg.BLOCK_SIZE : Int) - offset else n0
      let n2 :=
        if n1 > node.length - v.current_position then node.length - v.current_position else n1
      let bytes ← block_load st block offset n2
      pure { out := v.out ++ bytes, current_position := v.current_position + n2,
             bytes_read := v.bytes_read + n2, stopped := false }

/-- The loop `while (bytes_read < size && bytes_read < inode->length)` of
`RSFS_read`, left early by `break` at an unused pointer. -/
def read_loop (cfg : Config) (st : State) (node : inode) (size : Int) (fuel : Nat)
    (current_position : Int) : Except Fault read_vars :=
  while_loop
    (fun v : read_vars => v.stopped = false ∧ v.bytes_read < size ∧ v.bytes_read < node.length)
    (read_body cfg st node size) fuel
    { out := [], current_position := current_position, bytes_read := 0, stopped := false }

/-- One iteration of the loop `while (bytes_to_copy > 0)` of `RSFS_cut` (lines
562-577), which gathers the kept tail in the local buffer of
`NUM_POINTER*BLOCK_SIZE` bytes.  The variables are the part of the buffer
filled so far (`bytes_copied` is its length), `cut_start` and `bytes_to_copy`. -/
def gather_body (cfg : Config) (st : State) (node : inode) :
    List Nat × Int × Int → Except Fault (List Nat × Int × Int)
  | (acc, cut_start, bytes_to_copy) => do
    let block ← load_pointer node (cut_start.tdiv cfg.BLOCK_SIZE)
    let offset := cut_start.tmod cfg.BLOCK_SIZE
    let n :=
      if bytes_to_copy > (cfg.BLOCK_SIZE : Int) - offset then (cfg.BLOCK_SIZE : Int) - offset
      else bytes_to_copy
    let bytes ← block_load st block offset n
    if cfg.NUM_POINTER * cfg.BLOCK_SIZE < acc.length + bytes.length then
      Except.error (Fault.buffer_overrun acc.length n)
    else pure (acc ++ bytes, cut_start + n, bytes_to_copy - n)

/-- The loop `while (bytes_to_copy > 0)` of `RSFS_cut`. -/
def gather_loop (cfg : Config) (st : State) (node : inode) (fuel : Nat)
    (cut_start bytes_to_copy : Int) : Except Fault (List Nat × Int × Int) :=
  while_loop (fun v : List Nat × Int × Int => v.2.2 > 0) (gather_body cfg st node) fuel
    ([], cut_start, bytes_to_copy)

/-- `RSFS_append`. -/
def RSFS_append (cfg : Config) (fuel : Nat) (st : State) (fd : Int) (buf : List Nat)
    (size : Int) : Except Fault (State × Int) :=
  if fd < 0 ∨ fd ≥ cfg.NUM_OPEN_FILE ∨ size ≤ 0 then .ok (st, -1)
  else do
    let entry ← load_entry st fd
    let dir_entry ← deref_dir st entry.dir_entry
    if entry.access_flag ≠ cfg.RSFS_RDWR then pure (st, -1)
    else
      let (st1, current_position, bytes_written) ←
        copy_loop cfg dir_entry.inode_number buf size fuel st entry.position 0
      pure (store_entry st1 fd { entry with position := current_position }, bytes_written)

/-- `RSFS_read`; the third component is what the call copied to `buf`. -/
def RSFS_read (cfg : Config) (fuel : Nat) (st : State) (fd : Int) (size : Int) :
    Except Fault (State × Int × List Nat) :=
  if fd < 0 ∨ fd ≥ cfg.NUM_OPEN_FILE ∨ size ≤ 0 then .ok (st, -1, [])
  else do
    let entry ← load_entry st fd
    let dir_entry ← deref_dir st entry.dir_entry
    let node ← load_inode st dir_entry.inode_number
    let v ← read_loop cfg st node size fuel entry.position
    pure (store_entry st fd { entry with position := v.current_position }, v.bytes_read, v.out)

/-- `RSFS_write`: the removal loop, then the copy loop of `RSFS_append`. -/
def RSFS_write (cfg : Config) (fuel : Nat) (st : State) (fd : Int) (buf : List Nat)
    (size : Int) : Except Fault (State × Int) :=
  if fd < 0 ∨ fd ≥ cfg.NUM_OPEN_FILE ∨ size ≤ 0 then .ok (st, -1)
  else do
    let entry ← load_entry st fd
    let dir_entry ← deref_dir st entry.dir_entry
    if entry.access_flag ≠ cfg.RSFS_RDWR then pure (st, -1)
    else
      let current_position := entry.position
      if current_position + size > INT_MAX then Except.error Fault.int_overflow
      else
        let remove_from := current_position + size
        let node ← load_inode st dir_entry.inode_number
        let remove_to := node.length
        let (st1, _) ← zero_loop cfg dir_entry.inode_number remove_to fuel st remove_from
        let (st2, current_position, bytes_written) ←
          copy_loop cfg dir_entry.inode_number buf size fuel st1 current_position 0
        pure (store_entry st2 fd { entry with position := current_position }, bytes_written)

/-- `RSFS_cut`: gather the tail, copy it back at the cursor, zero what is left,
then `length -= size` and the cursor moves to the new length. -/
def RSFS_cut (cfg : Config) (fuel : Nat) (st : State) (fd : Int) (size : Int) :
    Except Fault (State × Int) :=
  if fd < 0 ∨ fd ≥ cfg.NUM_OPEN_FILE ∨ size ≤ 0 then .ok (st, -1)
  else do
    let entry ← load_entry st fd
    let current_position := entry.position
    let dir_entry ← deref_dir st entry.dir_entry
    let ino := dir_entry.inode_number
    if current_position + size > INT_MAX then Except.error Fault.int_overflow
    else
      let cut_start := current_position + size
      let node ← load_inode st ino
      let cut_end := node.length
      let (acc, _, _) ← gather_loop cfg st node fuel cut_start (cut_end - cut_start)
      let buf := acc ++ List.replicate (cfg.NUM_POINTER * cfg.BLOCK_SIZE - acc.length) 0
      let bytes_copied : Int := acc.length
      let (st1, current_position, _) ←
        copy_loop cfg ino buf bytes_copied fuel st entry.position 0
      let (st2, _) ← zero_loop cfg ino cut_end fuel st1 current_position
      let node2 ← load_inode st2 ino
      let st3 := store_inode st2 ino { node2 with length := node2.length - size }
      pure (store_entry st3 fd { entry with position := node2.length - size }, size)

/-! ## Observations used to state the properties -/

/-- Byte `i` of the file of an inode: offset `i % BLOCK_SIZE` of the block that
pointer `i / BLOCK_SIZE` names. -/
def byte_at (cfg : Config) (st : State) (node : inode) (i : Nat) : Option Nat :=
  match getAt node.block ((i / cfg.BLOCK_SIZE : Nat) : Int) with
  | none => none
  | some b =>
    match getAt st.data_blocks b with
    | none => none
    | some blk => blk[i % cfg.BLOCK_SIZE]?

/-- The content of a file: its bytes at offsets `0 .. length - 1`. -/
def file_content (cfg : Config) (st : State) (ino : Int) : Option (List Nat) :=
  match getAt st.inodes ino with
  | none => none
  | some node => (List.range node.length.toNat).mapM (byte_at cfg st node)

/-- The length of a file. -/
def file_length (st : State) (ino : Int) : Option Int :=
  (getAt st.inodes ino).map (fun node => node.length)

/-- Whether a result is the fault `out_of_fuel`. -/
def ran_out {α : Type} : Except Fault α → Bool
  | .error .out_of_fuel => true
  | _ => false

/-- A fuel-indexed computation is settled by fuel: once it gives an answer
other than `out_of_fuel`, every larger fuel gives the same answer. -/
def FuelMono {α : Type} (f : Nat → Except Fault α) : Prop :=
  ∀ n m, n ≤ m → ran_out (f n) = false → f m = f n

/-! ## A small engine used for concrete runs -/

/-- An engine with blocks of 4 bytes, 8 blocks, 2 inodes, 4 pointers per inode
(files of up to 16 bytes) and 2 open-file slots. -/
def demo : Config :=
  { BLOCK_SIZE := 4, NUM_DBLOCKS := 8, NUM_INODES := 2, NUM_POINTER := 4,
    NUM_OPEN_FILE := 2, RSFS_RDONLY := 0, RSFS_RDWR := 1 }

/-- A heap whose fresh allocations hold zero bytes. -/
def zero_heap : Nat → Nat → Nat := fun _ _ => 0

/-- The demo engine after `RSFS_init`, `RSFS_create("f")` and
`RSFS_open("f", RSFS_RDWR)`: file `f` is empty and descriptor 0 is a read-write
session on it. -/
def fresh_rw : State :=
  { data_blocks := List.replicate 8 [0, 0, 0, 0],
    data_bitmap := [0, 0, 0, 0, 0, 0, 0, 0],
    inode_bitmap := [1, 0],
    inodes := [{ length := 0, block := [-1, -1, -1, -1], num_current_reader := 0, rw_mutex := true },
               { length := 0, block := [-1, -1, -1, -1], num_current_reader := 0, rw_mutex := false }],
    open_file_table := [{ used := 1, dir_entry := some 0, position := 0, access_flag := 1 },
                        { used := 0, dir_entry := none, position := 0, access_flag := 0 }],
    root_dir := [{ addr := 0, name := "f", inode_number := 0 }],
    next_addr := 1 }

/-- The demo engine in which file `f` (inode 0) owns blocks 0, 1, 2 with the
given contents and has the given length, and descriptor 0 is a session on it
with the given reader count, access flag and cursor. -/
def three_blocks (b0 b1 b2 : List Nat) (length readers access_flag position : Int) : State :=
  { data_blocks := [b0, b1, b2] ++ List.replicate 5 [0, 0, 0, 0],
    data_bitmap := [1, 1, 1, 0, 0, 0, 0, 0],
    inode_bitmap := [1, 0],
    inodes := [{ length := length, block := [0, 1, 2, -1], num_current_reader := readers, rw_mutex := true },
               { length := 0, block := [-1, -1, -1, -1], num_current_reader := 0, rw_mutex := false }],
    open_file_table := [{ used := 1, dir_entry := some 0, position := position, access_flag := access_flag },
                        { used := 0, dir_entry := none, position := 0, access_flag := 0 }],
    root_dir := [{ addr := 0, name := "f", inode_number := 0 }],
    next_addr := 1 }

/-- File `f` holds the 10 bytes "AAAAAAAAAA"; read-write session, cursor `p`. -/
def ten_A (p : Int) : State :=
  three_blocks [65, 65, 65, 65] [65, 65, 65, 65] [65, 65, 0, 0] 10 0 1 p

/-- File `f` holds the 9 bytes 1..9; read-write session, cursor `p`. -/
def nine (p : Int) : State :=
  three_blocks [1, 2, 3, 4] [5, 6, 7, 8] [9, 0, 0, 0] 9 0 1 p

/-- The bytes of "HELLO WORLD". -/
def hello_world : List Nat := [72, 69, 76, 76, 79, 32, 87, 79, 82, 76, 68]

/-- File `f` holds "HELLO WORLD"; read-write session, cursor `p`. -/
def hello_rw (p : Int) : State :=
  three_blocks [72, 69, 76, 76] [79, 32, 87, 79] [82, 76, 68, 0] 11 0 1 p

/-- File `f` holds "HELLO WORLD"; descriptor 0 is a read-only session (one
reader), cursor `p`. -/
def hello_ro (p : Int) : State :=
  three_blocks [72, 69, 76, 76] [79, 32, 87, 79] [82, 76, 68, 0] 11 1 0 p

/-- What a call that returns leaves behind for file `f` of the demo engine:
its result, the length and the content of the file, and the cursor. -/
def observe (r : Except Fault (State × Int)) :
    Except Fault (Int × Option Int × Option (List Nat) × Option Int) :=
  r.map (fun x =>
    (x.2, file_length x.1 0, file_content demo x.1 0,
     (getAt x.1.open_file_table 0).map (fun e => e.position)))

/-- Names are unique across the live directory. -/
def names_unique (st : State) : Prop :=
  (st.root_dir.map (fun d => d.name)).Nodup

/-- The result codes of `RSFS_create` called on the names of a list in turn,
and the state after the last call. -/
def create_all (st : State) : List String → State × List Int
  | [] => (st, [])
  | file_name :: rest =>
    let r := RSFS_create st file_name
    let rs := create_all r.1 rest
    (rs.1, r.2 :: rs.2)

/-! ## Deletion -/

/-- Modelled from the spec: `free_inode` of the inode table, which is not among
the sources.  It clears the bit of the inode. -/
def free_inode (st : State) (inode_number : Int) : Except Fault State :=
  match getAt st.inode_bitmap inode_number with
  | some _ => .ok { st with inode_bitmap := setAt st.inode_bitmap inode_number 0 }
  | none => .error (.inode_index inode_number)

/-- Modelled from the spec: `delete_dir` of the directory, which is not among
the sources.  It removes the entry of the name from the list. -/
def delete_dir (st : State) (file_name : String) : State :=
  { st with root_dir := st.root_dir.eraseP (fun d => d.name == file_name) }

/-- One iteration of the loop of `RSFS_delete` (lines 383-388): wipe the block
that pointer `i` names and release it. -/
def delete_body (cfg : Config) (ino : Int) (st : State) (i : Nat) : Except Fault State := do
  let node ← load_inode st ino
  let block ← load_pointer node i
  let st1 ← block_zero st block 0 cfg.BLOCK_SIZE
  free_data_block st1 block

/-- The loop `for (i = 0; i <= file_length / BLOCK_SIZE; i++)` of `RSFS_delete`,
over the values of `i` that are left. -/
def delete_loop (cfg : Config) (ino : Int) : List Nat → State → Except Fault State
  | [], st => .ok st
  | i :: rest, st => (delete_body cfg ino st i).bind (delete_loop cfg ino rest)

/-- `RSFS_delete`: the loop runs for `i = 0, ..., file_length / BLOCK_SIZE`,
then the inode and the directory entry are released. -/
def RSFS_delete (cfg : Config) (st : State) (file_name : String) : Except Fault (State × Int) :=
  match search_dir st file_name with
  | none => .error .null_deref
  | some dir_entry => do
    let node ← load_inode st dir_entry.inode_number
    let file_length := node.length
    let last := file_length.tdiv cfg.BLOCK_SIZE
    let st1 ← delete_loop cfg dir_entry.inode_number (List.range (last + 1).toNat) st
    let st2 ← free_inode st1 dir_entry.inode_number
    pure (delete_dir st2 file_name, 0)

/-! ## Further engines and runs -/

/-- The demo engine after `RSFS_init`, `RSFS_create("f")` and
`RSFS_create("g")`: two empty files, no session. -/
def two_files : State :=
  { data_blocks := List.replicate 8 [0, 0, 0, 0],
    data_bitmap := [0, 0, 0, 0, 0, 0, 0, 0],
    inode_bitmap := [1, 1],
    inodes := [{ length := 0, block := [-1, -1, -1, -1], num_current_reader := 0, rw_mutex := false },
               { length := 0, block := [-1, -1, -1, -1], num_current_reader := 0, rw_mutex := false }],
    open_file_table := [{ used := 0, dir_entry := none, position := 0, access_flag := 0 },
                        { used := 0, dir_entry := none, position := 0, access_flag := 0 }],
    root_dir := [{ addr := 0, name := "f", inode_number := 0 },
                 { addr := 1, name := "g", inode_number := 1 }],
    next_addr := 2 }

/-- The engine `two_files` after two calls `RSFS_open("f", RSFS_RDONLY)`: both
open-file slots are in use, file `g` has no session and its lock is free. -/
def two_readers : State :=
  { two_files with
    inodes := [{ length := 0, block := [-1, -1, -1, -1], num_current_reader := 2, rw_mutex := true },
               { length := 0, block := [-1, -1, -1, -1], num_current_reader := 0, rw_mutex := false }],
    open_file_table := [{ used := 1, dir_entry := some 0, position := 0, access_flag := 0 },
                        { used := 1, dir_entry := some 0, position := 0, access_flag := 0 }] }

/-- The reader count and the lock of every inode, and the open-file table. -/
def admission (st : State) : List (Int × Bool) × List open_file_entry :=
  (st.inodes.map (fun node => (node.num_current_reader, node.rw_mutex)), st.open_file_table)

/-- The engine `fresh_rw` after `RSFS_write` of the 4 bytes 1..4: file `f` has
length 4 = BLOCK_SIZE and owns block 0. -/
def one_block : State :=
  { fresh_rw with
    data_blocks := [[1, 2, 3, 4]] ++ List.replicate 7 [0, 0, 0, 0],
    data_bitmap := [1, 0, 0, 0, 0, 0, 0, 0],
    inodes := [{ length := 4, block := [0, -1, -1, -1], num_current_reader := 0, rw_mutex := true },
               { length := 0, block := [-1, -1, -1, -1], num_current_reader := 0, rw_mutex := false }],
    open_file_table := [{ used := 1, dir_entry := some 0, position := 4, access_flag := 1 },
                        { used := 0, dir_entry := none, position := 0, access_flag := 0 }] }

/-- The number of blocks in use. -/
def used_blocks (st : State) : Nat :=
  st.data_bitmap.countP (fun b => b ≠ 0)

/-- A run on `two_files`: both files are opened read-write, 10 bytes are
written to `f`, the cursor of `f` is moved to 0 and 3 bytes are written (a
truncating write); the result is the state after it. -/
def truncating_write_run : Except Fault State := do
  let (s1, _) ← RSFS_open demo two_files "f" demo.RSFS_RDWR
  let (s2, _) ← RSFS_open demo s1 "g" demo.RSFS_RDWR
  let (s3, _) ← RSFS_write demo 8 s2 0 (List.replicate 10 65) 10
  let (s4, _) ← RSFS_fseek demo s3 0 0
  let (s5, _) ← RSFS_write demo 8 s4 0 [66, 66, 66] 3
  pure s5

/-- The pointer arrays of all inodes and the block bitmap. -/
def pointers_and_bitmap (st : State) : List (List Int) × List Int :=
  (st.inodes.map (fun node => node.block), st.data_bitmap)

/-- An engine like `demo` with only 2 data blocks. -/
def two_block_engine : Config :=
  { BLOCK_SIZE := 4, NUM_DBLOCKS := 2, NUM_INODES := 2, NUM_POINTER := 4,
    NUM_OPEN_FILE := 2, RSFS_RDONLY := 0, RSFS_RDWR := 1 }

/-- A run on the engine with 2 data blocks: file `f` is created and opened
read-write and 7 bytes are written, which takes both blocks; the result is the
state after it, with the cursor at 7. -/
def exhausting_run : Except Fault State := do
  let s0 := RSFS_init two_block_engine zero_heap
  let (s1, _) ← RSFS_open two_block_engine (RSFS_create s0 "f").1 "f" two_block_engine.RSFS_RDWR
  let (s2, _) ← RSFS_write two_block_engine 8 s1 0 [1, 2, 3, 4, 5, 6, 7] 7
  pure s2

/-! ## The admission protocol as functions of the inode -/

/-- What `RSFS_open` does to the inode of the file (lines 121-132): `none` when
the caller has to wait for `rw_mutex`. -/
def acquire (cfg : Config) (access_flag : Int) (node : inode) : Option inode :=
  if access_flag = cfg.RSFS_RDONLY then
    if node.num_current_reader + 1 = 1 then
      if node.rw_mutex then none
      else some { node with num_current_reader := node.num_current_reader + 1, rw_mutex := true }
    else some { node with num_current_reader := node.num_current_reader + 1 }
  else
    if node.rw_mutex then none else some { node with rw_mutex := true }

/-- What `RSFS_close` does to the inode of the file (lines 344-356). -/
def release (cfg : Config) (access_flag : Int) (node : inode) : inode :=
  if access_flag = cfg.RSFS_RDWR then { node with rw_mutex := false }
  else
    if node.num_current_reader - 1 = 0 then
      { node with num_current_reader := node.num_current_reader - 1, rw_mutex := false }
    else { node with num_current_reader := node.num_current_reader - 1 }

/-! ## Sessions and reachable states -/

/-- The access flag and the inode number of the session in slot `fd`: the flag
of the slot and the inode of the directory entry the slot points to. -/
def session_of (st : State) (fd : Int) : Option (Int × Int) :=
  match getAt st.open_file_table fd with
  | none => none
  | some e =>
    match deref_dir st e.dir_entry with
    | .ok d => some (e.access_flag, d.inode_number)
    | .error _ => none

/-- The number of read-write sessions on inode `i` among the descriptors `fds`. -/
def writers (cfg : Config) (st : State) (fds : List Int) (i : Int) : Nat :=
  fds.countP (fun fd => session_of st fd = some (cfg.RSFS_RDWR, i))

/-- The number of read-only sessions on inode `i` among the descriptors `fds`. -/
def readers (cfg : Config) (st : State) (fds : List Int) (i : Int) : Nat :=
  fds.countP (fun fd => session_of st fd = some (cfg.RSFS_RDONLY, i))

/-- The states reachable from the initialised engine, on which the files
`names` have been created, by `RSFS_open` and `RSFS_close` steps, together with
the descriptors that a successful open has returned and that are not yet
closed.  An open that would wait, or that leaves defined behaviour, is not a
step; a close is a step only on a descriptor of the list. -/
inductive Reach (cfg : Config) (heap : Nat → Nat → Nat) (names : List String) :
    State → List Int → Prop
  | start : Reach cfg heap names (create_all (RSFS_init cfg heap) names).1 []
  | opened (st st1 : State) (fds : List Int) (file_name : String) (access_flag fd : Int) :
      Reach cfg heap names st fds →
      RSFS_open cfg st file_name access_flag = .ok (st1, fd) → 0 ≤ fd →
      Reach cfg heap names st1 (fd :: fds)
  | refused (st st1 : State) (fds : List Int) (file_name : String) (access_flag fd : Int) :
      Reach cfg heap names st fds →
      RSFS_open cfg st file_name access_flag = .ok (st1, fd) → fd < 0 →
      Reach cfg heap names st1 fds
  | closed (st st1 : State) (fds : List Int) (fd r : Int) :
      Reach cfg heap names st fds → fd ∈ fds →
      RSFS_close cfg st fd = .ok (st1, r) →
      Reach cfg heap names st1 (fds.erase fd)

/-- The invariant of the reachable states: the open descriptors are distinct,
each is a used slot bound to a live entry with a valid flag and an inode of the
table; and for every inode the reader count is at least the number of reader
sessions, a positive reader count or a writer session means the lock is held,
a writer session means the reader count is 0, and there is at most one writer
session. -/
structure Admitted (cfg : Config) (st : State) (fds : List Int) : Prop where
  distinct : fds.Nodup
  bound : ∀ fd ∈ fds, ∃ e flag i node,
    getAt st.open_file_table fd = some e ∧ e.used = 1 ∧
    session_of st fd = some (flag, i) ∧
    (flag = cfg.RSFS_RDONLY ∨ flag = cfg.RSFS_RDWR) ∧
    getAt st.inodes i = some node
  counted : ∀ i node, getAt st.inodes i = some node →
    (readers cfg st fds i : Int) ≤ node.num_current_reader ∧
    (1 ≤ node.num_current_reader → node.rw_mutex = true) ∧
    (1 ≤ writers cfg st fds i → node.rw_mutex = true ∧ node.num_current_reader = 0) ∧
    writers cfg st fds i ≤ 1
  addresses : (st.root_dir.map (fun d => d.addr)).Nodup

/-- The engine `two_files` after `RSFS_open("f", RSFS_RDONLY)`, which returns
descriptor 0, and `RSFS_open("g", RSFS_RDWR)`, which returns descriptor 1. -/
def reader_and_writer : State :=
  { two_files with
    inodes := [{ length := 0, block := [-1, -1, -1, -1], num_current_reader := 1, rw_mutex := true },
               { length := 0, block := [-1, -1, -1, -1], num_current_reader := 0, rw_mutex := true }],
    open_file_table := [{ used := 1, dir_entry := some 0, position := 0, access_flag := 0 },
                        { used := 1, dir_entry := some 1, position := 0, access_flag := 1 }] }

/-- The engine `two_files` after `RSFS_open("f", RSFS_RDONLY)`, which returns
descriptor 0. -/
def one_reader : State :=
  { two_files with
    inodes := [{ length := 0, block := [-1, -1, -1, -1], num_current_reader := 1, rw_mutex := true },
               { length := 0, block := [-1, -1, -1, -1], num_current_reader := 0, rw_mutex := false }],
    open_file_table := [{ used := 1, dir_entry := some 0, position := 0, access_flag := 0 },
                        { used := 0, dir_entry := none, position := 0, access_flag := 0 }] }

/-- The engine `two_readers` after `RSFS_open("g", RSFS_RDWR)`, which returns
-1 because no slot is unused, `RSFS_close(0)` and `RSFS_close(1)`: no session
is left, both slots are unused, and the lock of `g` is held. -/
def leaked_lock : State :=
  { two_files with
    inodes := [{ length := 0, block := [-1, -1, -1, -1], num_current_reader := 0, rw_mutex := false },
               { length := 0, block := [-1, -1, -1, -1], num_current_reader := 0, rw_mutex := true }],
    open_file_table := [{ used := 0, dir_entry := some 0, position := 0, access_flag := 0 },
                        { used := 0, dir_entry := some 0, position := 0, access_flag := 0 }] }

/-! ## Creation after a failure and after a deletion -/

/-- The demo engine after `RSFS_init`, `RSFS_create("a")` and
`RSFS_create("b")`: both inodes are taken. -/
def inodes_exhausted : State :=
  (create_all (RSFS_init demo zero_heap) ["a", "b"]).1

/-- The engine `inodes_exhausted` after `RSFS_create("c")`, which returns -2. -/
def after_failed_create : State :=
  (RSFS_create inodes_exhausted "c").1

/-- The calls `RSFS_open("a", RSFS_RDWR)`, `RSFS_write(fd, {7}, 1)`,
`RSFS_close(fd)` and `RSFS_delete("a")` in turn, which release the inode of
file `a`; the result codes and the state after the last call. -/
def release_a (st : State) : Except Fault (List Int × State) := do
  let o ← RSFS_open demo st "a" demo.RSFS_RDWR
  let w ← RSFS_write demo 1 o.1 o.2 [7] 1
  let k ← RSFS_close demo w.1 o.2
  let d ← RSFS_delete demo k.1 "a"
  pure ([o.2, w.2, k.2, d.2], d.1)

/-- The calls `RSFS_close(0)`, `RSFS_delete("f")` and `RSFS_create("g")` in
turn on the engine in which `f` holds 10 bytes in blocks 0, 1, 2; the result
codes and the state after the last call. -/
def recreate_run : Except Fault (List Int × State) := do
  let k ← RSFS_close demo (ten_A 10) 0
  let d ← RSFS_delete demo k.1 "f"
  let c := RSFS_create d.1 "g"
  pure ([k.2, d.2, c.2], c.1)

/-- The inode that the name is bound to. -/
def inode_of (st : State) (file_name : String) : Option inode :=
  (search_dir st file_name).bind fun d => getAt st.inodes d.inode_number


/-! ## Fuel: more fuel never changes an answer -/

theorem while_loop_exit {σ : Type} (cond : σ → Prop) [DecidablePred cond]
    (body : σ → Except Fault σ) (fuel : Nat) (s : σ) (h : ¬ cond s) :
    while_loop cond body fuel s = .ok s := by
  cases fuel <;> simp [while_loop, h]

theorem while_loop_mono {σ : Type} (cond : σ → Prop) [DecidablePred cond]
    (body : σ → Except Fault σ) (s : σ) :
    FuelMono (fun fuel => while_loop cond body fuel s) := by
  intro n
  induction n generalizing s with
  | zero =>
    intro m _ hne
    by_cases hc : cond s
    · simp [while_loop, hc, ran_out] at hne
    · simp [while_loop_exit cond body _ s hc]
  | succ n ih =>
    intro m hle hne
    obtain ⟨k, rfl⟩ : ∃ k, m = k + 1 := ⟨m - 1, by omega⟩
    by_cases hc : cond s
    · simp only [while_loop, hc, if_true] at hne ⊢
      cases hb : body s with
      | error e => rfl
      | ok s1 =>
        rw [hb] at hne
        exact ih s1 k (by omega) hne
    · simp [while_loop_exit cond body _ s hc]

/-- A loop whose variables an iteration leaves as they are never ends. -/
theorem while_loop_stuck {σ : Type} (cond : σ → Prop) [DecidablePred cond]
    (body : σ → Except Fault σ) (s : σ) (hc : cond s) (hb : body s = .ok s) :
    ∀ fuel, while_loop cond body fuel s = .error .out_of_fuel := by
  intro fuel
  induction fuel with
  | zero => simp [while_loop, hc]
  | succ n ih => simp [while_loop, hc, hb, Except.bind, ih]

theorem FuelMono_const {α : Type} (r : Except Fault α) : FuelMono (fun _ => r) :=
  fun _ _ _ _ => rfl

theorem FuelMono_bind {α β : Type} {f : Nat → Except Fault α} {g : α → Nat → Except Fault β}
    (hf : FuelMono f) (hg : ∀ a, FuelMono (g a)) :
    FuelMono (fun n => f n >>= fun a => g a n) := by
  intro n m hle hne
  simp only [bind, Except.bind] at hne ⊢
  cases hfn : f n with
  | error e =>
    rw [hfn] at hne
    have hne1 : ran_out (Except.error e : Except Fault α) = false := by
      cases e <;> first | rfl | exact hne
    have : f m = f n := hf n m hle (by rw [hfn]; exact hne1)
    rw [this, hfn]
  | ok a =>
    rw [hfn] at hne
    have : f m = f n := hf n m hle (by rw [hfn]; simp [ran_out])
    rw [this, hfn]
    exact hg a n m hle hne

theorem FuelMono_ite {α : Type} (c : Prop) [Decidable c] {f g : Nat → Except Fault α}
    (hf : FuelMono f) (hg : FuelMono g) : FuelMono (fun n => if c then f n else g n) := by
  by_cases h : c
  · simpa [h] using hf
  · simpa [h] using hg

/-- An answer obtained with fuel `n` is the answer for every fuel from `n` on. -/
theorem FuelMono_from {α : Type} {f : Nat → Except Fault α} (hf : FuelMono f) (n : Nat)
    (hn : ran_out (f n) = false) (fuel : Nat) : f (fuel + n) = f n :=
  hf n (fuel + n) (by omega) hn

theorem copy_loop_mono (cfg : Config) (ino : Int) (buf : List Nat) (size : Int)
    (st : State) (p w : Int) : FuelMono (fun fuel => copy_loop cfg ino buf size fuel st p w) :=
  while_loop_mono _ _ _

theorem zero_loop_mono (cfg : Config) (ino : Int) (stop : Int) (st : State) (p : Int) :
    FuelMono (fun fuel => zero_loop cfg ino stop fuel st p) :=
  while_loop_mono _ _ _

theorem read_loop_mono (cfg : Config) (st : State) (node : inode) (size p : Int) :
    FuelMono (fun fuel => read_loop cfg st node size fuel p) :=
  while_loop_mono _ _ _

theorem gather_loop_mono (cfg : Config) (st : State) (node : inode) (a b : Int) :
    FuelMono (fun fuel => gather_loop cfg st node fuel a b) :=
  while_loop_mono _ _ _

theorem RSFS_append_mono (cfg : Config) (st : State) (fd : Int) (buf : List Nat) (size : Int) :
    FuelMono (fun fuel => RSFS_append cfg fuel st fd buf size) := by
  unfold RSFS_append
  refine FuelMono_ite _ (FuelMono_const _) ?_
  refine FuelMono_bind (FuelMono_const _) (fun entry => ?_)
  refine FuelMono_bind (FuelMono_const _) (fun d => ?_)
  refine FuelMono_ite _ (FuelMono_const _) ?_
  exact FuelMono_bind (copy_loop_mono _ _ _ _ _ _ _) (fun a => FuelMono_const _)

theorem RSFS_read_mono (cfg : Config) (st : State) (fd : Int) (size : Int) :
    FuelMono (fun fuel => RSFS_read cfg fuel st fd size) := by
  unfold RSFS_read
  refine FuelMono_ite _ (FuelMono_const _) ?_
  refine FuelMono_bind (FuelMono_const _) (fun entry => ?_)
  refine FuelMono_bind (FuelMono_const _) (fun d => ?_)
  refine FuelMono_bind (FuelMono_const _) (fun node => ?_)
  exact FuelMono_bind (read_loop_mono _ _ _ _ _) (fun a => FuelMono_const _)

theorem RSFS_write_mono (cfg : Config) (st : State) (fd : Int) (buf : List Nat) (size : Int) :
    FuelMono (fun fuel => RSFS_write cfg fuel st fd buf size) := by
  unfold RSFS_write
  refine FuelMono_ite _ (FuelMono_const _) ?_
  refine FuelMono_bind (FuelMono_const _) (fun entry => ?_)
  refine FuelMono_bind (FuelMono_const _) (fun d => ?_)
  refine FuelMono_ite _ (FuelMono_const _) ?_
  refine FuelMono_ite _ (FuelMono_const _) ?_
  refine FuelMono_bind (FuelMono_const _) (fun node => ?_)
  refine FuelMono_bind (zero_loop_mono _ _ _ _ _) (fun a => ?_)
  exact FuelMono_bind (copy_loop_mono _ _ _ _ _ _ _) (fun a => FuelMono_const _)

theorem RSFS_cut_mono (cfg : Config) (st : State) (fd : Int) (size : Int) :
    FuelMono (fun fuel => RSFS_cut cfg fuel st fd size) := by
  unfold RSFS_cut
  refine FuelMono_ite _ (FuelMono_const _) ?_
  refine FuelMono_bind (FuelMono_const _) (fun entry => ?_)
  refine FuelMono_bind (FuelMono_const _) (fun d => ?_)
  refine FuelMono_ite _ (FuelMono_const _) ?_
  refine FuelMono_bind (FuelMono_const _) (fun node => ?_)
  refine FuelMono_bind (gather_loop_mono _ _ _ _ _) (fun a => ?_)
  refine FuelMono_bind (copy_loop_mono _ _ _ _ _ _ _) (fun a => ?_)
  refine FuelMono_bind (zero_loop_mono _ _ _ _ _) (fun a => ?_)
  exact FuelMono_bind (FuelMono_const _) (fun a => FuelMono_const _)

/-- A call that faults with fuel `n`, and gives no result with less, gives no
result with any fuel. -/
theorem no_result_of_fault {α : Type} {f : Nat → Except Fault α} (hf : FuelMono f) (n : Nat)
    (hn : ran_out (f n) = false) (hnone : ∀ k, k ≤ n → (f k).toOption = none) :
    ∀ fuel, (f fuel).toOption = none := by
  intro fuel
  by_cases h : fuel ≤ n
  · exact hnone fuel h
  · rw [hf n fuel (by omega) hn]
    exact hnone n (le_refl n)

/-! ## The slip in the copy loop -/

/-- The count of the copy loop is the smaller of the room and the bytes left,
except when the two are equal: then it is the whole `size`. -/
theorem bytes_to_write_eq (size space_available bytes_written : Int) :
    bytes_to_write size space_available bytes_written =
      if space_available = size - bytes_written then size
      else min space_available (size - bytes_written) := by
  unfold bytes_to_write
  by_cases h1 : space_available > size - bytes_written
  · have h2 : ¬ space_available < size - bytes_written := by omega
    have h3 : ¬ space_available = size - bytes_written := by omega
    simp only [h1, h2, h3, if_true, if_false]
    omega
  · by_cases h2 : space_available < size - bytes_written
    · have h3 : ¬ space_available = size - bytes_written := by omega
      simp only [h1, h2, h3, if_true, if_false]
      omega
    · have h3 : space_available = size - bytes_written := by omega
      simp only [h1, h2, if_false]
      simp [h3]

theorem allocate_data_block_blocks (st : State) :
    (allocate_data_block st).1.data_blocks = st.data_blocks := by
  unfold allocate_data_block
  split <;> rfl

theorem buf_load_length (buf : List Nat) (start n : Int) (src : List Nat)
    (h : buf_load buf start n = .ok src) : (src.length : Int) = n := by
  unfold buf_load at h
  split at h
  · cases h
  · rename_i hc
    simp only [not_or, not_lt] at hc
    simp only [Except.ok.injEq] at h
    subst h
    simp only [List.length_take, List.length_drop]
    omega

theorem block_store_overrun (st : State) (block offset : Int) (src : List Nat) (size : Nat)
    (hblocks : ∀ b ∈ st.data_blocks, b.length = size)
    (h : (size : Int) < offset + src.length) :
    (block_store st block offset src).toOption = none := by
  unfold block_store
  cases hg : getAt st.data_blocks block with
  | none => rfl
  | some b =>
    have hb : b.length = size := by
      apply hblocks
      unfold getAt at hg
      split at hg
      · cases hg
      · exact List.mem_iff_getElem?.2 ⟨_, hg⟩
    have hc : offset < 0 ∨ (b.length : Int) < offset + src.length := Or.inr (by rw [hb]; exact h)
    simp only [hc, if_true]
    rfl

/-- The slip of the copy loop, for every engine: in an iteration that is not
the first (`0 < bytes_written`) and in which the bytes left are exactly
the room in the block, the count is the whole `size`, which is more than the
room, and the iteration copies past the end of the block: it gives no result. -/
theorem copy_body_equal_case (cfg : Config) (ino : Int) (buf : List Nat) (size : Int)
    (st : State) (current_position bytes_written : Int)
    (hblocks : ∀ b ∈ st.data_blocks, b.length = cfg.BLOCK_SIZE)
    (hw : 0 < bytes_written)
    (heq : (cfg.BLOCK_SIZE : Int) - current_position.tmod cfg.BLOCK_SIZE
      = size - bytes_written) :
    bytes_to_write size ((cfg.BLOCK_SIZE : Int) - current_position.tmod cfg.BLOCK_SIZE)
      bytes_written = size ∧
    (copy_body cfg ino buf size (st, current_position, bytes_written)).toOption = none := by
  have hn : bytes_to_write size ((cfg.BLOCK_SIZE : Int) - current_position.tmod cfg.BLOCK_SIZE)
      bytes_written = size := by
    rw [bytes_to_write_eq, if_pos heq]
  refine ⟨hn, ?_⟩
  simp only [copy_body, bind, Except.bind, hn]
  cases load_inode st ino with
  | error e => rfl
  | ok node =>
    simp only []
    cases load_pointer node (current_position.tdiv cfg.BLOCK_SIZE) with
    | error e => rfl
    | ok block0 =>
      simp only []
      cases hsrc : buf_load buf bytes_written size with
      | error e => rfl
      | ok src =>
        simp only []
        have hlen := buf_load_length _ _ _ _ hsrc
        have hover : ∀ (s1 : State) (blk : Int) (v : State),
            block_store s1 blk (current_position.tmod cfg.BLOCK_SIZE) src = .ok v →
            s1.data_blocks = st.data_blocks → False := by
          intro s1 blk v hv hs1
          have h1 := block_store_overrun s1 blk (current_position.tmod cfg.BLOCK_SIZE) src
            cfg.BLOCK_SIZE (by rw [hs1]; exact hblocks) (by omega)
          rw [hv] at h1
          cases h1
        by_cases hb : block0 = -1
        · simp only [hb, if_true]
          split
          · rfl
          · rename_i v hv
            exact (hover _ _ _ hv (allocate_data_block_blocks st)).elim
        · simp only [hb, if_false]
          split
          · rfl
          · rename_i v hv
            exact (hover _ _ _ hv rfl).elim

/-! ## The states of the concrete runs are reachable through the API -/

theorem fresh_rw_reachable :
    RSFS_open demo (RSFS_create (RSFS_init demo zero_heap) "f").1 "f" demo.RSFS_RDWR
      = .ok (fresh_rw, 0) := by rfl

theorem ten_A_reachable :
    RSFS_write demo 3 fresh_rw 0 (List.replicate 10 65) 10 = .ok (ten_A 10, 10) ∧
    RSFS_fseek demo (ten_A 10) 0 0 = .ok (ten_A 0, 0) ∧
    RSFS_fseek demo (ten_A 10) 0 1 = .ok (ten_A 1, 1) ∧
    RSFS_fseek demo (ten_A 10) 0 3 = .ok (ten_A 3, 3) :=
  ⟨by rfl, by rfl, by rfl, by rfl⟩

theorem nine_reachable :
    RSFS_write demo 3 fresh_rw 0 [1, 2, 3, 4, 5, 6, 7, 8, 9] 9 = .ok (nine 9, 9) ∧
    RSFS_fseek demo (nine 9) 0 0 = .ok (nine 0, 0) :=
  ⟨by rfl, by rfl⟩

theorem hello_rw_reachable :
    RSFS_write demo 3 fresh_rw 0 hello_world 11 = .ok (hello_rw 11, 11) ∧
    RSFS_fseek demo (hello_rw 11) 0 5 = .ok (hello_rw 5, 5) :=
  ⟨by rfl, by rfl⟩

theorem hello_ro_reachable :
    ((RSFS_close demo (hello_rw 11) 0).bind fun c =>
      (RSFS_open demo c.1 "f" demo.RSFS_RDONLY).bind fun o =>
        (RSFS_fseek demo o.1 o.2 5).map fun s => (c.2, o.2, s))
      = .ok (0, 0, hello_ro 5, 5) := by rfl

/-! ## Claims about the data path -/

/-- The round trip of claim C1 at a size the copy loop handles: 7 bytes written
at cursor 0 of the fresh file, a seek to 0 and a read of 7 give the bytes back. -/
theorem round_trip_seven :
    ((RSFS_write demo 2 fresh_rw 0 [1, 2, 3, 4, 5, 6, 7] 7).bind fun w =>
      (RSFS_fseek demo w.1 0 0).bind fun s =>
        (RSFS_read demo 2 s.1 0 7).map fun r => (w.2, s.2, r.2))
      = .ok (7, 0, 7, [1, 2, 3, 4, 5, 6, 7]) := by rfl

/-- Claim C1, read-after-write round trip, fails on the code at size
2*BLOCK_SIZE: on the freshly created file opened read-write (cursor 0, all
blocks free, capacity 16 bytes), `RSFS_write` of the 8 bytes 1..8 takes the
whole `size` as the count of its second iteration and reads 8 bytes at offset 4
of the 8-byte buffer; the call has no result for any fuel, so there is nothing
to seek back to and read. -/
theorem write_two_blocks_has_no_round_trip :
    RSFS_open demo (RSFS_create (RSFS_init demo zero_heap) "f").1 "f" demo.RSFS_RDWR
      = .ok (fresh_rw, 0) ∧
    (∀ fuel, RSFS_write demo (fuel + 2) fresh_rw 0 [1, 2, 3, 4, 5, 6, 7, 8] 8
      = .error (.buffer_overrun 4 8)) ∧
    (∀ fuel, (RSFS_write demo fuel fresh_rw 0 [1, 2, 3, 4, 5, 6, 7, 8] 8).toOption = none) := by
  have hm := RSFS_write_mono demo fresh_rw 0 [1, 2, 3, 4, 5, 6, 7, 8] 8
  refine ⟨by rfl, fun fuel => ?_, ?_⟩
  · exact (FuelMono_from hm 2 (by rfl) fuel).trans (by rfl)
  · refine no_result_of_fault hm 2 (by rfl) ?_
    intro k hk
    interval_cases k <;> rfl

/-- Claim C2, `RSFS_write` truncates, fails on the code: on the file
"AAAAAAAAAA" with cursor 0, `RSFS_write` of "BBB" returns 3 and zeroes the old
bytes after offset 3, but the length stays 10 (the claim says 3) and the
content is "BBB" followed by seven zero bytes. -/
theorem write_keeps_the_old_length :
    ∀ fuel, observe (RSFS_write demo (fuel + 3) (ten_A 0) 0 [66, 66, 66] 3)
      = .ok (3, some 10, some [66, 66, 66, 0, 0, 0, 0, 0, 0, 0], some 3) := by
  intro fuel
  rw [FuelMono_from (RSFS_write_mono demo (ten_A 0) 0 [66, 66, 66] 3) 3 (by rfl) fuel]
  rfl

/-- The example of claim C3: on the file "AAAAAAAAAA" with cursor 0,
`RSFS_append` of "BBB" returns 3, the length stays 10 and the content is
"BBBAAAAAAA". -/
theorem append_example :
    ∀ fuel, observe (RSFS_append demo (fuel + 1) (ten_A 0) 0 [66, 66, 66] 3)
      = .ok (3, some 10, some [66, 66, 66, 65, 65, 65, 65, 65, 65, 65], some 3) := by
  intro fuel
  rw [FuelMono_from (RSFS_append_mono demo (ten_A 0) 0 [66, 66, 66] 3) 1 (by rfl) fuel]
  rfl

/-- Claim C3, `RSFS_append` overwrites in place, fails on the code: on the file
"AAAAAAAAAA" with cursor 3, `RSFS_append` of "BBBBB" (3 + 5 = 8 is within the
file) writes one byte to the end of block 0 and then, with 4 bytes left and 4
bytes of room, takes the whole `size` 5 as its count and reads 5 bytes at
offset 1 of the 5-byte buffer; the call has no result for any fuel. -/
theorem append_in_place_overruns :
    (∀ fuel, RSFS_append demo (fuel + 2) (ten_A 3) 0 [66, 66, 66, 66, 66] 5
      = .error (.buffer_overrun 1 5)) ∧
    (∀ fuel, (RSFS_append demo fuel (ten_A 3) 0 [66, 66, 66, 66, 66] 5).toOption = none) := by
  have hm := RSFS_append_mono demo (ten_A 3) 0 [66, 66, 66, 66, 66] 5
  refine ⟨fun fuel => ?_, ?_⟩
  · exact (FuelMono_from hm 2 (by rfl) fuel).trans (by rfl)
  · refine no_result_of_fault hm 2 (by rfl) ?_
    intro k hk
    interval_cases k <;> rfl

/-- Claim C4, bytes-written result, fails on the code at cursor 0 and size
2*BLOCK_SIZE: with 4 of 8 bytes written and 4 bytes of room the count of the
copy loop is 8, and on the fresh file both `RSFS_append` and `RSFS_write`, given
8 bytes in a 16-byte buffer, copy 8 bytes to offset 0 of the 4-byte block 1
instead of returning 8. -/
theorem append_and_write_two_blocks_overrun :
    bytes_to_write 8 4 4 = 8 ∧
    (∀ fuel, RSFS_append demo (fuel + 2) fresh_rw 0 (List.replicate 16 7) 8
      = .error (.block_overrun 1 0 8)) ∧
    (∀ fuel, RSFS_write demo (fuel + 2) fresh_rw 0 (List.replicate 16 7) 8
      = .error (.block_overrun 1 0 8)) := by
  refine ⟨by rfl, fun fuel => ?_, fun fuel => ?_⟩
  · exact (FuelMono_from (RSFS_append_mono demo fresh_rw 0 (List.replicate 16 7) 8) 2
      (by rfl) fuel).trans (by rfl)
  · exact (FuelMono_from (RSFS_write_mono demo fresh_rw 0 (List.replicate 16 7) 8) 2
      (by rfl) fuel).trans (by rfl)

/-- The example of claim C5: on the file "HELLO WORLD" with cursor 5,
`RSFS_cut` of 6 bytes returns 6 and leaves "HELLO" with length 5. -/
theorem cut_example :
    ∀ fuel, observe (RSFS_cut demo (fuel + 2) (hello_rw 5) 0 6)
      = .ok (6, some 5, some [72, 69, 76, 76, 79], some 5) := by
  intro fuel
  rw [FuelMono_from (RSFS_cut_mono demo (hello_rw 5) 0 6) 2 (by rfl) fuel]
  rfl

/-- Claim C5, `RSFS_cut` compacts, fails on the code when the kept tail is a
multiple of BLOCK_SIZE spanning two blocks: on the 9-byte file with cursor 0,
`RSFS_cut` of 1 byte gathers the 8 kept bytes and, copying them back, takes the
whole 8 as the count of its second iteration and copies 8 bytes to offset 0 of
the 4-byte block 1; the call has no result for any fuel. -/
theorem cut_two_block_tail_overruns :
    (∀ fuel, RSFS_cut demo (fuel + 3) (nine 0) 0 1 = .error (.block_overrun 1 0 8)) ∧
    (∀ fuel, (RSFS_cut demo fuel (nine 0) 0 1).toOption = none) := by
  have hm := RSFS_cut_mono demo (nine 0) 0 1
  refine ⟨fun fuel => ?_, ?_⟩
  · exact (FuelMono_from hm 3 (by rfl) fuel).trans (by rfl)
  · refine no_result_of_fault hm 3 (by rfl) ?_
    intro k hk
    interval_cases k <;> rfl

/-- A read that stays within the file: on the file "AAAAAAAAAA" with cursor 1,
`RSFS_read` of 9 bytes returns 9, the bytes at offsets 1..9, and the cursor 10. -/
theorem read_within_the_file :
    ∀ fuel, (RSFS_read demo (fuel + 3) (ten_A 1) 0 9)
      = .ok (ten_A 10, 9, List.replicate 9 65) := by
  intro fuel
  rw [FuelMono_from (RSFS_read_mono demo (ten_A 1) 0 9) 3 (by rfl) fuel]
  rfl

/-- Claim C6, `RSFS_read` returns min(size, L - p) bytes, fails on the code
when the cursor is not 0 and size is larger than L - p: on the file
"AAAAAAAAAA" (L = 10, not a multiple of BLOCK_SIZE) with cursor 1, `RSFS_read`
of 20 bytes copies the 9 bytes left and then repeats an iteration of 0 bytes
for ever, because the loop compares `bytes_read` (9) and not the cursor (10) to
the length; it returns for no fuel. -/
theorem read_past_the_end_never_returns :
    ∀ fuel, RSFS_read demo fuel (ten_A 1) 0 20 = .error .out_of_fuel := by
  intro fuel
  have hstuck := while_loop_stuck
    (fun v : read_vars => v.stopped = false ∧ v.bytes_read < 20 ∧ v.bytes_read < 10)
    (read_body demo (ten_A 1)
      { length := 10, block := [0, 1, 2, -1], num_current_reader := 0, rw_mutex := true } 20)
    { out := List.replicate 9 65, current_position := 10, bytes_read := 9, stopped := false }
    (by decide) (by rfl)
  rcases fuel with _ | _ | _ | fuel
  · rfl
  · rfl
  · rfl
  · have step : RSFS_read demo (fuel + 3) (ten_A 1) 0 20
        = ((while_loop
            (fun v : read_vars => v.stopped = false ∧ v.bytes_read < 20 ∧ v.bytes_read < 10)
            (read_body demo (ten_A 1)
              { length := 10, block := [0, 1, 2, -1], num_current_reader := 0,
                rw_mutex := true } 20) fuel
            { out := List.replicate 9 65, current_position := 10, bytes_read := 9,
              stopped := false }).bind fun v =>
            .ok (store_entry (ten_A 1) 0
              { used := 1, dir_entry := some 0, position := v.current_position,
                access_flag := 1 }, v.bytes_read, v.out)) := by
      rfl
    rw [step, hstuck fuel]
    rfl

/-! ## Seeking and argument checks -/

theorem getAt_setAt_self {α : Type} (xs : List α) (i : Int) (v : α) (x : α)
    (h : getAt xs i = some x) : getAt (setAt xs i v) i = some v := by
  unfold getAt at h
  unfold getAt setAt
  by_cases hi : i < 0
  · simp [hi] at h
  · simp only [hi, if_false] at h ⊢
    have hlt : i.toNat < xs.length := by
      rcases List.getElem?_eq_some.1 h with ⟨hl, _⟩
      exact hl
    simp [List.getElem?_set, hlt]

/-- Claim C7, `RSFS_fseek`: for a descriptor in range whose slot is bound to a
file of length `L` with cursor `p`, an offset below 0 or above `L` returns `p`
and leaves the whole state as it is; an offset with `0 ≤ offset ≤ L` (with
`offset = L` included) returns `offset`, and the only change of the state is
that the cursor of the slot is `offset`. -/
theorem RSFS_fseek_spec (cfg : Config) (st : State) (fd offset L p : Int)
    (entry : open_file_entry) (d : dir_entry) (node : inode)
    (hfd : 0 ≤ fd ∧ fd < cfg.NUM_OPEN_FILE)
    (hentry : load_entry st fd = .ok entry)
    (hdir : deref_dir st entry.dir_entry = .ok d)
    (hnode : load_inode st d.inode_number = .ok node)
    (hL : node.length = L) (hp : entry.position = p) :
    ((offset < 0 ∨ offset > L) → RSFS_fseek cfg st fd offset = .ok (st, p)) ∧
    ((0 ≤ offset ∧ offset ≤ L) →
      RSFS_fseek cfg st fd offset
        = .ok (store_entry st fd { entry with position := offset }, offset) ∧
      load_entry (store_entry st fd { entry with position := offset }) fd
        = .ok { entry with position := offset }) := by
  have hg : ¬ (fd < 0 ∨ fd ≥ (cfg.NUM_OPEN_FILE : Int)) := by omega
  subst hL hp
  constructor
  · intro h
    simp [RSFS_fseek, hg, hentry, hdir, hnode, h, bind, Except.bind, pure, Except.pure]
  · intro h
    have h2 : ¬ (offset < 0 ∨ offset > node.length) := by omega
    refine ⟨?_, ?_⟩
    · simp [RSFS_fseek, hg, hentry, hdir, hnode, h2, bind, Except.bind, pure, Except.pure]
    · have hget : getAt st.open_file_table fd = some entry := by
        unfold load_entry at hentry
        cases hq : getAt st.open_file_table fd with
        | none => simp [hq] at hentry
        | some e =>
          simp only [hq, Except.ok.injEq] at hentry
          rw [hentry]
      simp [load_entry, store_entry, getAt_setAt_self _ _ _ _ hget]

/-- Claim C7 at the file "AAAAAAAAAA" (L = 10) with cursor 3: offsets 11 and -1
return 3 and change nothing, offset 10 = L moves the cursor to 10. -/
theorem RSFS_fseek_spec_witness :
    RSFS_fseek demo (ten_A 3) 0 11 = .ok (ten_A 3, 3) ∧
    RSFS_fseek demo (ten_A 3) 0 (-1) = .ok (ten_A 3, 3) ∧
    RSFS_fseek demo (ten_A 3) 0 10 = .ok (ten_A 10, 10) :=
  have h := fun offset => RSFS_fseek_spec demo (ten_A 3) 0 offset 10 3
    { used := 1, dir_entry := some 0, position := 3, access_flag := 1 }
    { addr := 0, name := "f", inode_number := 0 }
    { length := 10, block := [0, 1, 2, -1], num_current_reader := 0, rw_mutex := true }
    (by decide) (by rfl) (by rfl) (by rfl) (by rfl) (by rfl)
  ⟨(h 11).1 (by decide), (h (-1)).1 (by decide), ((h 10).2 (by decide)).1⟩

/-- Claim C8, invalid arguments are rejected before any mutation: with a
descriptor below 0 or not below NUM_OPEN_FILE, or a size that is not positive,
`RSFS_append`, `RSFS_write`, `RSFS_read` and `RSFS_cut` return -1 and the state
they leave is the state they were given; and on a slot bound to a directory
entry whose access flag is not RSFS_RDWR, `RSFS_append` and `RSFS_write` return
-1 with the state as given, whatever the arguments. -/
theorem invalid_arguments_rejected (cfg : Config) (fuel : Nat) (st : State) (fd size : Int)
    (buf : List Nat) :
    ((fd < 0 ∨ fd ≥ cfg.NUM_OPEN_FILE ∨ size ≤ 0) →
      RSFS_append cfg fuel st fd buf size = .ok (st, -1) ∧
      RSFS_write cfg fuel st fd buf size = .ok (st, -1) ∧
      RSFS_read cfg fuel st fd size = .ok (st, -1, []) ∧
      RSFS_cut cfg fuel st fd size = .ok (st, -1)) ∧
    (∀ entry d, load_entry st fd = .ok entry → deref_dir st entry.dir_entry = .ok d →
      entry.access_flag ≠ cfg.RSFS_RDWR →
      RSFS_append cfg fuel st fd buf size = .ok (st, -1) ∧
      RSFS_write cfg fuel st fd buf size = .ok (st, -1)) := by
  constructor
  · intro h
    simp [RSFS_append, RSFS_write, RSFS_read, RSFS_cut, h]
  · intro entry d he hd hflag
    by_cases h : fd < 0 ∨ fd ≥ (cfg.NUM_OPEN_FILE : Int) ∨ size ≤ 0
    · simp [RSFS_append, RSFS_write, h]
    · simp [RSFS_append, RSFS_write, h, he, hd, hflag, bind, Except.bind, pure, Except.pure]

/-- Claim C8 on the demo engine: descriptors -1 and 2 and size 0 are
rejected by all four calls, and the read-only session on "HELLO WORLD" cannot
append or write. -/
theorem invalid_arguments_rejected_witness :
    (RSFS_append demo 9 (ten_A 3) (-1) [1] 1 = .ok (ten_A 3, -1) ∧
      RSFS_write demo 9 (ten_A 3) (-1) [1] 1 = .ok (ten_A 3, -1) ∧
      RSFS_read demo 9 (ten_A 3) (-1) 1 = .ok (ten_A 3, -1, []) ∧
      RSFS_cut demo 9 (ten_A 3) (-1) 1 = .ok (ten_A 3, -1)) ∧
    (RSFS_append demo 9 (ten_A 3) 2 [1] 1 = .ok (ten_A 3, -1) ∧
      RSFS_write demo 9 (ten_A 3) 2 [1] 1 = .ok (ten_A 3, -1) ∧
      RSFS_read demo 9 (ten_A 3) 2 1 = .ok (ten_A 3, -1, []) ∧
      RSFS_cut demo 9 (ten_A 3) 2 1 = .ok (ten_A 3, -1)) ∧
    (RSFS_append demo 9 (ten_A 3) 0 [1] 0 = .ok (ten_A 3, -1) ∧
      RSFS_write demo 9 (ten_A 3) 0 [1] 0 = .ok (ten_A 3, -1) ∧
      RSFS_read demo 9 (ten_A 3) 0 0 = .ok (ten_A 3, -1, []) ∧
      RSFS_cut demo 9 (ten_A 3) 0 0 = .ok (ten_A 3, -1)) ∧
    (RSFS_append demo 9 (hello_ro 5) 0 [1] 1 = .ok (hello_ro 5, -1) ∧
      RSFS_write demo 9 (hello_ro 5) 0 [1] 1 = .ok (hello_ro 5, -1)) :=
  ⟨(invalid_arguments_rejected demo 9 (ten_A 3) (-1) 1 [1]).1 (by decide),
   (invalid_arguments_rejected demo 9 (ten_A 3) 2 1 [1]).1 (by decide),
   (invalid_arguments_rejected demo 9 (ten_A 3) 0 0 [1]).1 (by decide),
   (invalid_arguments_rejected demo 9 (hello_ro 5) 0 1 [1]).2
     { used := 1, dir_entry := some 0, position := 5, access_flag := 0 }
     { addr := 0, name := "f", inode_number := 0 } (by rfl) (by rfl) (by decide)⟩

/-- Claim C9, `RSFS_cut` is denied on a read-only session, fails on the code:
`RSFS_cut` has no access-flag check, so on the read-only session with cursor 5
on "HELLO WORLD" a cut of 6 bytes returns 6, not a negative code, the length
becomes 5, the bytes after "HELLO" are zeroed and block 2 is released in the
bitmap. -/
theorem cut_on_a_read_only_session_mutates :
    (load_entry (hello_ro 5) 0).map (fun e => e.access_flag) = .ok demo.RSFS_RDONLY ∧
    (∀ fuel, observe (RSFS_cut demo (fuel + 2) (hello_ro 5) 0 6)
      = .ok (6, some 5, some [72, 69, 76, 76, 79], some 5)) ∧
    (∀ fuel, (RSFS_cut demo (fuel + 2) (hello_ro 5) 0 6).map
        (fun r => (r.1.data_bitmap, r.1.data_blocks.take 3))
      = .ok ([1, 1, 0, 0, 0, 0, 0, 0], [[72, 69, 76, 76], [79, 0, 0, 0], [0, 0, 0, 0]])) ∧
    (hello_ro 5).data_bitmap = [1, 1, 1, 0, 0, 0, 0, 0] ∧
    file_length (hello_ro 5) 0 = some 11 := by
  have hm := FuelMono_from (RSFS_cut_mono demo (hello_ro 5) 0 6) 2 (by rfl)
  refine ⟨by rfl, fun fuel => ?_, fun fuel => ?_, by rfl, by rfl⟩
  · rw [hm fuel]; rfl
  · rw [hm fuel]; rfl

/-! ## Creation -/

theorem find_clear_some (bm : List Int) (i : Nat) (h : find_clear bm = some i) :
    bm[i]? = some 0 ∧ ∀ j, j < i → bm[j]? ≠ some 0 := by
  induction bm generalizing i with
  | nil => simp [find_clear] at h
  | cons b bs ih =>
    unfold find_clear at h
    by_cases hb : b = 0
    · simp only [hb, if_true, Option.some.injEq] at h
      subst h
      simp [hb]
    · simp only [hb, if_false, Option.map_eq_some'] at h
      obtain ⟨k, hk, rfl⟩ := h
      obtain ⟨h1, h2⟩ := ih k hk
      refine ⟨by simpa using h1, ?_⟩
      intro j hj
      cases j with
      | zero => simpa using hb
      | succ j => simpa using h2 j (by omega)

theorem find_clear_none (bm : List Int) :
    find_clear bm = none ↔ ∀ j : Nat, bm[j]? ≠ some 0 := by
  induction bm with
  | nil => simp [find_clear]
  | cons b bs ih =>
    unfold find_clear
    by_cases hb : b = 0
    · simp only [hb, if_true]
      constructor
      · intro h; cases h
      · intro h; exact absurd (by simp [hb]) (h 0)
    · simp only [hb, if_false, Option.map_eq_none', ih]
      constructor
      · intro h j
        cases j with
        | zero => simpa using hb
        | succ j => simpa using h j
      · intro h j
        simpa using h (j + 1)

theorem search_dir_none_iff (st : State) (file_name : String) :
    search_dir st file_name = none ↔ file_name ∉ st.root_dir.map (fun d => d.name) := by
  unfold search_dir
  rw [List.find?_eq_none]
  simp only [List.mem_map, not_exists, not_and, beq_iff_eq, Bool.not_eq_true]

/-- The state after `insert_dir` has appended the entry for a new name. -/
theorem insert_dir_fst (st : State) (file_name : String) :
    (insert_dir st file_name).1 =
      { st with
        root_dir := st.root_dir ++ [{ addr := st.next_addr, name := file_name, inode_number := -1 }],
        next_addr := st.next_addr + 1 } := rfl

/-- `RSFS_create` of a name that is not in the directory, with a free inode. -/
theorem RSFS_create_some (st : State) (file_name : String) (i : Nat)
    (h : search_dir st file_name = none) (hi : find_clear st.inode_bitmap = some i) :
    RSFS_create st file_name =
      (set_inode_number
        { (insert_dir st file_name).1 with inode_bitmap := st.inode_bitmap.set i 1 }
        st.next_addr i, 0) := by
  have hneg : ¬ ((i : Int) < 0) := by omega
  simp [RSFS_create, h, insert_dir, allocate_inode, hi, hneg]

/-- `RSFS_create` of a name that is not in the directory, with no free inode:
the entry that was inserted stays. -/
theorem RSFS_create_none (st : State) (file_name : String)
    (h : search_dir st file_name = none) (hi : find_clear st.inode_bitmap = none) :
    RSFS_create st file_name = ((insert_dir st file_name).1, -2) := by
  simp [RSFS_create, h, insert_dir, allocate_inode, hi]

theorem set_inode_number_names (st : State) (a : Nat) (n : Int) :
    (set_inode_number st a n).root_dir.map (fun d => d.name)
      = st.root_dir.map (fun d => d.name) := by
  unfold set_inode_number
  simp only [List.map_map]
  apply List.map_congr_left
  intro d _
  simp only [Function.comp]
  split <;> rfl

theorem search_dir_after_create (st : State) (file_name : String) (i : Nat) (bm : List Int)
    (h : search_dir st file_name = none) :
    search_dir
      (set_inode_number { (insert_dir st file_name).1 with inode_bitmap := bm } st.next_addr i)
      file_name
      = some { addr := st.next_addr, name := file_name, inode_number := i } := by
  unfold search_dir at h ⊢
  simp only [set_inode_number, insert_dir, List.map_append, List.map_cons, List.map_nil,
    List.find?_append, if_true]
  rw [List.find?_map]
  have hnone : List.find? ((fun d => d.name == file_name) ∘
      fun d : dir_entry => if d.addr = st.next_addr then
        { d with inode_number := (i : Int) } else d) st.root_dir = none := by
    rw [List.find?_eq_none] at h ⊢
    intro d hd
    have := h d hd
    simp only [Function.comp]
    split <;> simpa using this
  rw [hnone]
  simp

theorem find_clear_ones_zeros (k m : Nat) :
    find_clear (List.replicate k 1 ++ List.replicate m 0) = if m = 0 then none else some k := by
  induction k with
  | zero =>
    cases m with
    | zero => simp [find_clear]
    | succ m => simp [find_clear, List.replicate_succ]
  | succ k ih =>
    have h10 : ¬ ((1 : Int) = 0) := by decide
    have hcons : List.replicate (k + 1) (1 : Int) ++ List.replicate m 0
        = 1 :: (List.replicate k 1 ++ List.replicate m 0) := by
      simp [List.replicate_succ]
    rw [hcons, find_clear, if_neg h10, ih]
    split <;> simp

theorem set_ones_zeros (k m : Nat) :
    (List.replicate k (1 : Int) ++ List.replicate (m + 1) 0).set k 1
      = List.replicate (k + 1) 1 ++ List.replicate m 0 := by
  induction k with
  | zero => simp [List.replicate_succ]
  | succ k ih =>
    simp only [List.replicate_succ, List.cons_append, List.set_cons_succ] at ih ⊢
    rw [ih]

/-- With `k` inodes in use and `m` free, creating files with new, distinct
names gives 0 for the first `m` of them and -2 for all the others. -/
theorem create_all_codes (names : List String) :
    ∀ (st : State) (k m : Nat),
      st.inode_bitmap = List.replicate k 1 ++ List.replicate m 0 →
      names.Nodup →
      (∀ n ∈ names, n ∉ st.root_dir.map (fun d => d.name)) →
      (create_all st names).2
        = List.replicate (min m names.length) 0 ++ List.replicate (names.length - m) (-2) := by
  induction names with
  | nil => intro st k m _ _ _; simp [create_all]
  | cons n ns ih =>
    intro st k m hbm hnd hfresh
    have hn : search_dir st n = none :=
      (search_dir_none_iff st n).2 (hfresh n (List.mem_cons_self _ _))
    have hnd2 : ns.Nodup := (List.nodup_cons.1 hnd).2
    have hn_notin : n ∉ ns := (List.nodup_cons.1 hnd).1
    have hfc := find_clear_ones_zeros k m
    rw [← hbm] at hfc
    cases m with
    | zero =>
      simp only [if_true] at hfc
      have hc := RSFS_create_none st n hn hfc
      have hrest := ih (insert_dir st n).1 k 0 (by simpa [insert_dir] using hbm) hnd2 (by
        intro x hx
        simp only [insert_dir, List.map_append, List.map_cons, List.map_nil, List.mem_append,
          List.mem_singleton, not_or]
        exact ⟨hfresh x (List.mem_cons_of_mem _ hx), fun hxn => hn_notin (hxn ▸ hx)⟩)
      simp only [create_all, hc, hrest]
      simp [List.replicate_succ]
    | succ m =>
      simp only [Nat.succ_ne_zero, if_false] at hfc
      have hc := RSFS_create_some st n k hn hfc
      have hrest := ih
        (set_inode_number { (insert_dir st n).1 with inode_bitmap := st.inode_bitmap.set k 1 }
          st.next_addr k) (k + 1) m
        (by simp only [set_inode_number]; rw [hbm, set_ones_zeros]) hnd2 (by
          intro x hx
          rw [set_inode_number_names]
          simp only [insert_dir, List.map_append, List.map_cons, List.map_nil, List.mem_append,
            List.mem_singleton, not_or]
          exact ⟨hfresh x (List.mem_cons_of_mem _ hx), fun hxn => hn_notin (hxn ▸ hx)⟩)
      simp only [create_all, hc, hrest]
      simp [List.replicate_succ, Nat.succ_min_succ]

/-- Claim C10, the result codes of `RSFS_create`: a name that is in the
directory gives -1 and the state is unchanged; a name that is absent, when some
inode is free, gives 0, the inode `i` taken is the first free one, its bitmap
bit is set afterwards, a search for the name finds an entry bound to `i`, and
unique names stay unique; a name that is absent, when no inode is free, gives
-2; so creating NUM_INODES + 1 files with distinct names on the initialised
engine gives 0 for the first NUM_INODES of them and -2 for the last. -/
theorem RSFS_create_result_codes (cfg : Config) (heap : Nat → Nat → Nat) (st : State)
    (file_name : String) :
    ((∃ d, search_dir st file_name = some d) → RSFS_create st file_name = (st, -1)) ∧
    (search_dir st file_name = none → (∃ j : Nat, st.inode_bitmap[j]? = some 0) →
      ∃ i : Nat,
        (RSFS_create st file_name).2 = 0 ∧
        st.inode_bitmap[i]? = some 0 ∧ (∀ j : Nat, j < i → st.inode_bitmap[j]? ≠ some 0) ∧
        (RSFS_create st file_name).1.inode_bitmap[i]? = some 1 ∧
        (∃ d, search_dir (RSFS_create st file_name).1 file_name = some d ∧
          d.name = file_name ∧ d.inode_number = i) ∧
        (names_unique st → names_unique (RSFS_create st file_name).1)) ∧
    (search_dir st file_name = none → (∀ j : Nat, st.inode_bitmap[j]? ≠ some 0) →
      (RSFS_create st file_name).2 = -2) ∧
    (∀ names : List String, names.Nodup → names.length = cfg.NUM_INODES + 1 →
      (create_all (RSFS_init cfg heap) names).2 = List.replicate cfg.NUM_INODES 0 ++ [-2]) := by
  refine ⟨?_, ?_, ?_, ?_⟩
  · rintro ⟨d, hd⟩
    simp [RSFS_create, hd]
  · intro hn hfree
    cases hfc : find_clear st.inode_bitmap with
    | none =>
      obtain ⟨j, hj⟩ := hfree
      exact absurd hj ((find_clear_none _).1 hfc j)
    | some i =>
      obtain ⟨h0, hfirst⟩ := find_clear_some _ _ hfc
      have hlt : i < st.inode_bitmap.length := by
        rcases List.getElem?_eq_some.1 h0 with ⟨hl, _⟩
        exact hl
      rw [RSFS_create_some st file_name i hn hfc]
      refine ⟨i, rfl, h0, hfirst, ?_, ?_, ?_⟩
      · simp [set_inode_number, List.getElem?_set, hlt]
      · exact ⟨_, search_dir_after_create st file_name i _ hn, rfl, rfl⟩
      · intro hu
        unfold names_unique at hu ⊢
        rw [set_inode_number_names]
        simp only [insert_dir, List.map_append, List.map_cons, List.map_nil]
        refine List.Nodup.append hu (List.nodup_singleton _) ?_
        intro x hx hx2
        rw [List.mem_singleton] at hx2
        subst hx2
        exact (search_dir_none_iff st x).1 hn hx
  · intro hn hfull
    rw [RSFS_create_none st file_name hn ((find_clear_none _).2 hfull)]
  · intro names hnd hlen
    have h := create_all_codes names (RSFS_init cfg heap) 0 cfg.NUM_INODES
      (by simp [RSFS_init]) hnd (by simp [RSFS_init])
    rw [h, hlen]
    simp

/-- Claim C10 on the demo engine (2 inodes): creating "f" again gives -1 and
changes nothing; creating "f" on the initialised engine gives 0 and binds it to
inode 0; with both inodes taken "c" gives -2; and "a", "b", "c" created in turn
give 0, 0, -2. -/
theorem RSFS_create_result_codes_witness :
    RSFS_create fresh_rw "f" = (fresh_rw, -1) ∧
    (∃ i : Nat,
      (RSFS_create (RSFS_init demo zero_heap) "f").2 = 0 ∧
      (RSFS_init demo zero_heap).inode_bitmap[i]? = some 0 ∧
      (∀ j : Nat, j < i → (RSFS_init demo zero_heap).inode_bitmap[j]? ≠ some 0) ∧
      (RSFS_create (RSFS_init demo zero_heap) "f").1.inode_bitmap[i]? = some 1 ∧
      (∃ d, search_dir (RSFS_create (RSFS_init demo zero_heap) "f").1 "f" = some d ∧
        d.name = "f" ∧ d.inode_number = i) ∧
      (names_unique (RSFS_init demo zero_heap) →
        names_unique (RSFS_create (RSFS_init demo zero_heap) "f").1)) ∧
    (RSFS_create (create_all (RSFS_init demo zero_heap) ["a", "b"]).1 "c").2 = -2 ∧
    (create_all (RSFS_init demo zero_heap) ["a", "b", "c"]).2 = [0, 0, -2] :=
  ⟨(RSFS_create_result_codes demo zero_heap fresh_rw "f").1 ⟨_, rfl⟩,
   (RSFS_create_result_codes demo zero_heap (RSFS_init demo zero_heap) "f").2.1 (by rfl)
     ⟨0, by rfl⟩,
   (RSFS_create_result_codes demo zero_heap
      (create_all (RSFS_init demo zero_heap) ["a", "b"]).1 "c").2.2.1 (by rfl)
     (by
      intro j
      have hbm : (create_all (RSFS_init demo zero_heap) ["a", "b"]).1.inode_bitmap = [1, 1] := by
        rfl
      rw [hbm]
      match j with
      | 0 => decide
      | 1 => decide
      | (k + 2) => simp),
   (RSFS_create_result_codes demo zero_heap fresh_rw "f").2.2.2 ["a", "b", "c"]
     (by decide) (by rfl)⟩

/-! ## The states of the further runs are reachable through the API -/

theorem two_files_reachable :
    RSFS_create (RSFS_create (RSFS_init demo zero_heap) "f").1 "g" = (two_files, 0) := by rfl

theorem two_readers_reachable :
    ((RSFS_open demo two_files "f" demo.RSFS_RDONLY).bind fun a =>
      (RSFS_open demo a.1 "f" demo.RSFS_RDONLY).map fun b => (a.2, b.2, b.1))
      = .ok (0, 1, two_readers) := by rfl

theorem one_block_reachable :
    RSFS_write demo 1 fresh_rw 0 [1, 2, 3, 4] 4 = .ok (one_block, 4) := by rfl

/-! ## Claims about sessions, deletion and the invariants -/

/-- Claim C11, session exhaustion does not corrupt state, fails on the code:
with both open-file slots in use by readers of `f`, and the lock of `g` free,
`RSFS_open("g", RSFS_RDWR)` returns -1 and leaves the table as it was, but the
lock of `g` stays held; `RSFS_open("g", RSFS_RDONLY)` returns -1 and leaves
the reader count of `g` at 1 with its lock held.  The admission is taken
before `allocate_open_file_entry` is called and is not given back when that
fails. -/
theorem open_with_full_table_keeps_the_lock :
    admission two_readers = ([(2, true), (0, false)], two_readers.open_file_table) ∧
    (RSFS_open demo two_readers "g" demo.RSFS_RDWR).map (fun r => (r.2, admission r.1))
      = .ok (-1, [(2, true), (0, true)], two_readers.open_file_table) ∧
    (RSFS_open demo two_readers "g" demo.RSFS_RDONLY).map (fun r => (r.2, admission r.1))
      = .ok (-1, [(2, true), (1, true)], two_readers.open_file_table) ∧
    ((RSFS_open demo two_readers "g" demo.RSFS_RDWR).bind fun r =>
      (RSFS_close demo r.1 0).bind fun c =>
        RSFS_open demo c.1 "g" demo.RSFS_RDWR) = .error .would_block := by
  refine ⟨by rfl, by rfl, by rfl, by rfl⟩

/-- A deletion that the loop of `RSFS_delete` handles: file `f` of length 10
owns blocks 0, 1, 2; `RSFS_delete("f")` returns 0, the three blocks are zeroed
and released, so the number of blocks in use drops from 3 to 0. -/
theorem delete_example :
    used_blocks (ten_A 0) = 3 ∧
    (RSFS_delete demo (ten_A 0) "f").map
        (fun r => (r.2, used_blocks r.1, r.1.data_blocks.take 3, search_dir r.1 "f"))
      = .ok (0, 0, [[0, 0, 0, 0], [0, 0, 0, 0], [0, 0, 0, 0]], none) := by
  refine ⟨by rfl, by rfl⟩

/-- Claim C13, `RSFS_delete` frees exactly the blocks of the file, fails on the
code when the length is 0 or a multiple of BLOCK_SIZE: the loop runs while
`i <= file_length / BLOCK_SIZE`, one position too far.  For the empty file `f`
it reads pointer 0, which is -1, and for the file of length 4 = BLOCK_SIZE it
reads pointer 1, which is -1; in both cases `data_blocks[-1]` is wiped and the
call does not return 0. -/
theorem delete_reads_one_pointer_too_many :
    file_length (RSFS_create (RSFS_init demo zero_heap) "f").1 0 = some 0 ∧
    RSFS_delete demo (RSFS_create (RSFS_init demo zero_heap) "f").1 "f"
      = .error (.block_index (-1)) ∧
    file_length one_block 0 = some 4 ∧
    RSFS_delete demo one_block "f" = .error (.block_index (-1)) := by
  refine ⟨by rfl, by rfl, by rfl, by rfl⟩

/-- Claim C14, `RSFS_delete` removes the name and releases the inode, fails on
the code for an empty file: with the empty files `f` and `g`,
`RSFS_delete("f")` wipes `data_blocks[-1]` in the first iteration of its loop
and reaches neither `free_inode` nor `delete_dir`. -/
theorem delete_of_an_empty_file_faults :
    (search_dir two_files "f").map (fun d => d.inode_number) = some 0 ∧
    file_length two_files 0 = some 0 ∧
    RSFS_delete demo two_files "f" = .error (.block_index (-1)) ∧
    delete_body demo 0 two_files 0 = .error (.block_index (-1)) := by
  refine ⟨by rfl, by rfl, by rfl, by rfl⟩

/-- Claim C15, the file length stays in range, fails on the code: on the empty
file opened read-write, `RSFS_cut(fd, 1)` passes the checks of the call (the
descriptor is in range, the size is positive), returns 1 and leaves the length
and the cursor at -1; and `RSFS_append` of 17 bytes, one more than the capacity
of 16, reads pointer 4 of the 4 pointers of the inode. -/
theorem cut_makes_the_length_negative :
    file_length fresh_rw 0 = some 0 ∧
    (∀ fuel, observe (RSFS_cut demo fuel fresh_rw 0 1) = .ok (1, some (-1), some [], some (-1))) ∧
    (∀ fuel, RSFS_append demo (fuel + 5) fresh_rw 0 (List.replicate 17 7) 17
      = .error (.pointer_index 4)) := by
  refine ⟨by rfl, fun fuel => ?_, fun fuel => ?_⟩
  · rw [show fuel = fuel + 0 from rfl,
      FuelMono_from (RSFS_cut_mono demo fresh_rw 0 1) 0 (by rfl) fuel]
    rfl
  · exact (FuelMono_from (RSFS_append_mono demo fresh_rw 0 (List.replicate 17 7) 17) 5
      (by rfl) fuel).trans (by rfl)

/-- Claim C16, block exclusivity, fails on the code: after a truncating write
on `f` (10 bytes written, then 3 bytes written at cursor 0) the bits of blocks
1 and 2 are clear while the pointers 1 and 2 of `f` still name them, and an
append of one byte to `g` is then given block 1, which both inodes reference. -/
theorem truncated_blocks_are_shared :
    truncating_write_run.map pointers_and_bitmap
      = .ok ([[0, 1, 2, -1], [-1, -1, -1, -1]], [1, 0, 0, 0, 0, 0, 0, 0]) ∧
    (truncating_write_run.bind fun s =>
      (RSFS_append demo 8 s 1 [9] 1).map fun r => (r.2, pointers_and_bitmap r.1))
      = .ok (1, [[0, 1, 2, -1], [1, -1, -1, -1]], [1, 1, 0, 0, 0, 0, 0, 0]) := by
  refine ⟨by rfl, by rfl⟩

/-- Claim C17, block exhaustion is surfaced, fails on the code: on the engine
with 2 data blocks, both taken by the 7 bytes of `f`, `RSFS_append` and
`RSFS_write` of 2 bytes at cursor 7 fill block 1 and then reach pointer 2,
which is unused; `allocate_data_block` returns -1, the calls store it in the
pointer array and copy to `data_blocks[-1]`.  No negative code is returned. -/
theorem exhausted_blocks_are_dereferenced :
    exhausting_run.map (fun s => (pointers_and_bitmap s, (allocate_data_block s).2))
      = .ok (([[0, 1, -1, -1], [-1, -1, -1, -1]], [1, 1]), -1) ∧
    (∀ fuel, (exhausting_run.bind fun s => RSFS_append two_block_engine (fuel + 2) s 0 [8, 9] 2)
      = .error (.block_index (-1))) ∧
    (∀ fuel, (exhausting_run.bind fun s => RSFS_write two_block_engine (fuel + 2) s 0 [8, 9] 2)
      = .error (.block_index (-1))) := by
  have hrun : exhausting_run = .ok
      { data_blocks := [[1, 2, 3, 4], [5, 6, 7, 0]],
        data_bitmap := [1, 1],
        inode_bitmap := [1, 0],
        inodes := [{ length := 7, block := [0, 1, -1, -1], num_current_reader := 0, rw_mutex := true },
                   { length := 0, block := [-1, -1, -1, -1], num_current_reader := 0, rw_mutex := false }],
        open_file_table := [{ used := 1, dir_entry := some 0, position := 7, access_flag := 1 },
                            { used := 0, dir_entry := none, position := 0, access_flag := 0 }],
        root_dir := [{ addr := 0, name := "f", inode_number := 0 }],
        next_addr := 1 } := by rfl
  refine ⟨by rfl, fun fuel => ?_, fun fuel => ?_⟩
  · rw [hrun]
    exact (FuelMono_from (RSFS_append_mono two_block_engine _ 0 [8, 9] 2) 2 (by rfl) fuel).trans
      (by rfl)
  · rw [hrun]
    exact (FuelMono_from (RSFS_write_mono two_block_engine _ 0 [8, 9] 2) 2 (by rfl) fuel).trans
      (by rfl)

/-- Claim C18, `RSFS_read` terminates, fails on the code with the cursor at
end-of-file: on the file "AAAAAAAAAA" (L = 10) with cursor 10, `RSFS_read` of 1
byte enters the loop because `bytes_read` 0 is below the length, copies
`length - current_position` = 0 bytes from block 2 and repeats this for ever;
it returns for no fuel. -/
theorem read_at_end_of_file_never_returns :
    ∀ fuel, RSFS_read demo fuel (ten_A 10) 0 1 = .error .out_of_fuel := by
  intro fuel
  have hstuck := while_loop_stuck
    (fun v : read_vars => v.stopped = false ∧ v.bytes_read < 1 ∧ v.bytes_read < 10)
    (read_body demo (ten_A 10)
      { length := 10, block := [0, 1, 2, -1], num_current_reader := 0, rw_mutex := true } 1)
    { out := [], current_position := 10, bytes_read := 0, stopped := false }
    (by decide) (by rfl)
  have step : RSFS_read demo fuel (ten_A 10) 0 1
      = ((while_loop
          (fun v : read_vars => v.stopped = false ∧ v.bytes_read < 1 ∧ v.bytes_read < 10)
          (read_body demo (ten_A 10)
            { length := 10, block := [0, 1, 2, -1], num_current_reader := 0,
              rw_mutex := true } 1) fuel
          { out := [], current_position := 10, bytes_read := 0, stopped := false }).bind fun v =>
          .ok (store_entry (ten_A 10) 0
            { used := 1, dir_entry := some 0, position := v.current_position,
              access_flag := 1 }, v.bytes_read, v.out)) := by
    rfl
  rw [step, hstuck fuel]
  rfl

/-- Claim C19, the pointer/length invariant, fails on the code after
`RSFS_cut`: on "HELLO WORLD" (length 11, pointers 0, 1, 2 in use) with cursor 5
a cut of 6 bytes (5 + 6 = 11) leaves length 5, so that only positions below
ceil(5 / 4) = 2 may be in use, but pointer 2 still names block 2, whose bitmap
bit the call has cleared. -/
theorem cut_leaves_the_pointer_of_a_freed_block :
    pointers_and_bitmap (hello_rw 5)
      = ([[0, 1, 2, -1], [-1, -1, -1, -1]], [1, 1, 1, 0, 0, 0, 0, 0]) ∧
    (∀ fuel, (RSFS_cut demo (fuel + 2) (hello_rw 5) 0 6).map
        (fun r => (r.2, file_length r.1 0, pointers_and_bitmap r.1))
      = .ok (6, some 5, [[0, 1, 2, -1], [-1, -1, -1, -1]], [1, 1, 0, 0, 0, 0, 0, 0])) := by
  refine ⟨by rfl, fun fuel => ?_⟩
  rw [FuelMono_from (RSFS_cut_mono demo (hello_rw 5) 0 6) 2 (by rfl) fuel]
  rfl

/-! ## Opening and closing sessions -/

theorem find_unused_some (t : List open_file_entry) (k : Nat) (h : find_unused t = some k) :
    ∃ e, t[k]? = some e ∧ e.used = 0 := by
  induction t generalizing k with
  | nil => simp [find_unused] at h
  | cons a as ih =>
    unfold find_unused at h
    by_cases ha : a.used = 0
    · simp only [ha, if_true, Option.some.injEq] at h
      subst h
      exact ⟨a, by simp, ha⟩
    · simp only [ha, if_false, Option.map_eq_some'] at h
      obtain ⟨j, hj, rfl⟩ := h
      obtain ⟨e, he, hu⟩ := ih j hj
      exact ⟨e, by simpa using he, hu⟩

theorem getAt_natCast {α : Type} (xs : List α) (k : Nat) : getAt xs (k : Int) = xs[k]? := by
  unfold getAt
  have h : ¬ ((k : Int) < 0) := by omega
  simp [h]

theorem setAt_natCast {α : Type} (xs : List α) (k : Nat) (v : α) :
    setAt xs (k : Int) v = xs.set k v := by
  unfold setAt
  have h : ¬ ((k : Int) < 0) := by omega
  simp [h]

theorem setAt_setAt {α : Type} (xs : List α) (i : Int) (v w : α) :
    setAt (setAt xs i v) i w = setAt xs i w := by
  unfold setAt
  by_cases h : i < 0
  · simp [h]
  · simp [h, List.set_set]

theorem set_of_getElem? {α : Type} (xs : List α) (k : Nat) (x : α) (h : xs[k]? = some x) :
    xs.set k x = xs := by
  induction xs generalizing k with
  | nil => rfl
  | cons a as ih =>
    cases k with
    | zero =>
      simp only [List.getElem?_cons_zero, Option.some.injEq] at h
      simp [h]
    | succ k =>
      simp only [List.getElem?_cons_succ] at h
      simp [ih k h]

theorem setAt_getAt {α : Type} (xs : List α) (i : Int) (x : α) (h : getAt xs i = some x) :
    setAt xs i x = xs := by
  unfold getAt at h
  unfold setAt
  by_cases hi : i < 0
  · simp [hi]
  · simp only [hi, if_false] at h ⊢
    exact set_of_getElem? _ _ _ h

theorem load_inode_some (st : State) (i : Int) (node : inode) :
    load_inode st i = .ok node ↔ getAt st.inodes i = some node := by
  unfold load_inode
  cases getAt st.inodes i <;> simp

theorem load_entry_some (st : State) (fd : Int) (e : open_file_entry) :
    load_entry st fd = .ok e ↔ getAt st.open_file_table fd = some e := by
  unfold load_entry
  cases getAt st.open_file_table fd <;> simp

/-- A directory entry that is in the list is what its own address points to,
when the entries of the list have distinct addresses. -/
theorem find_addr_of_mem (l : List dir_entry) (d : dir_entry) (hmem : d ∈ l)
    (hnd : (l.map (fun x => x.addr)).Nodup) :
    l.find? (fun x => x.addr == d.addr) = some d := by
  induction l with
  | nil => cases hmem
  | cons a as ih =>
    rw [List.map_cons, List.nodup_cons] at hnd
    rcases List.mem_cons.1 hmem with h | h
    · subst h
      simp
    · have hne : a.addr ≠ d.addr := by
        intro heq
        exact hnd.1 (heq ▸ List.mem_map_of_mem (fun x => x.addr) h)
      rw [List.find?_cons]
      have : (a.addr == d.addr) = false := by simpa using hne
      rw [this]
      exact ih h hnd.2

theorem deref_dir_of_search (st : State) (file_name : String) (d : dir_entry)
    (hnd : (st.root_dir.map (fun x => x.addr)).Nodup)
    (h : search_dir st file_name = some d) : deref_dir st (some d.addr) = .ok d := by
  have hmem : d ∈ st.root_dir := List.mem_of_find?_eq_some h
  simp [deref_dir, find_addr_of_mem _ _ hmem hnd]

/-- `RSFS_open` written with `acquire`. -/
theorem RSFS_open_eq (cfg : Config) (st : State) (file_name : String) (access_flag : Int) :
    RSFS_open cfg st file_name access_flag =
      if access_flag ≠ cfg.RSFS_RDONLY ∧ access_flag ≠ cfg.RSFS_RDWR then .ok (st, -1)
      else
        match search_dir st file_name with
        | none => .error .null_deref
        | some dir =>
          match load_inode st dir.inode_number with
          | .error e => .error e
          | .ok node =>
            match acquire cfg access_flag node with
            | none => .error .would_block
            | some node1 =>
              .ok (allocate_open_file_entry (store_inode st dir.inode_number node1)
                    access_flag dir) := by
  unfold RSFS_open
  split
  · rfl
  · cases search_dir st file_name with
    | none => rfl
    | some dir =>
      simp only [bind, Except.bind]
      cases load_inode st dir.inode_number with
      | error e => rfl
      | ok node =>
        simp only [acquire]
        by_cases h1 : access_flag = cfg.RSFS_RDONLY
        · by_cases h2 : node.num_current_reader + 1 = 1
          · cases h3 : node.rw_mutex <;> simp [h1, h2, h3, pure, Except.pure]
          · simp [h1, h2, pure, Except.pure]
        · cases h3 : node.rw_mutex <;> simp [h1, h3, pure, Except.pure]

/-- `RSFS_close` written with `release`. -/
theorem RSFS_close_eq (cfg : Config) (st : State) (fd : Int) :
    RSFS_close cfg st fd =
      if fd < 0 ∨ fd ≥ cfg.NUM_OPEN_FILE then .ok (st, -1)
      else
        match load_entry st fd with
        | .error e => .error e
        | .ok entry =>
          match deref_dir st entry.dir_entry with
          | .error e => .error e
          | .ok d =>
            match load_inode st d.inode_number with
            | .error e => .error e
            | .ok node =>
              .ok (free_open_file_entry
                    (store_inode st d.inode_number (release cfg entry.access_flag node)) fd, 0) := by
  unfold RSFS_close
  split
  · rfl
  · simp only [bind, Except.bind]
    cases load_entry st fd with
    | error e => rfl
    | ok entry =>
      simp only []
      cases deref_dir st entry.dir_entry with
      | error e => rfl
      | ok d =>
        simp only []
        cases load_inode st d.inode_number with
        | error e => rfl
        | ok node =>
          simp only [release, pure, Except.pure]
          by_cases h1 : entry.access_flag = cfg.RSFS_RDWR
          · simp [h1]
          · by_cases h2 : node.num_current_reader - 1 = 0
            · simp [h1, h2]
            · simp [h1, h2]

/-- A release undoes an admission with the same flag. -/
theorem release_acquire (cfg : Config) (access_flag : Int) (node node1 : inode)
    (hflags : cfg.RSFS_RDONLY ≠ cfg.RSFS_RDWR)
    (hvalid : access_flag = cfg.RSFS_RDONLY ∨ access_flag = cfg.RSFS_RDWR)
    (h : acquire cfg access_flag node = some node1) :
    release cfg access_flag node1 = node := by
  unfold acquire at h
  unfold release
  rcases hvalid with hv | hv
  · have hne : ¬ access_flag = cfg.RSFS_RDWR := by rw [hv]; exact hflags
    simp only [hv, if_true] at h
    rw [hv] at hne
    simp only [hv, hne, if_false]
    by_cases h2 : node.num_current_reader + 1 = 1
    · simp only [h2, if_true] at h
      cases h3 : node.rw_mutex with
      | true => simp [h3] at h
      | false =>
        simp only [h3, Bool.false_eq_true, if_false, Option.some.injEq] at h
        subst h
        have h0 : node.num_current_reader = 0 := by omega
        cases node
        simp_all
    · simp only [h2, if_false, Option.some.injEq] at h
      subst h
      have hc : ¬ (node.num_current_reader + 1 - 1 = 0) := by omega
      simp only [hc, if_false]
      cases node
      simp
  · have hne : ¬ access_flag = cfg.RSFS_RDONLY := by rw [hv]; exact fun e => hflags e.symm
    simp only [hne, if_false] at h
    simp only [hv, if_true]
    cases h3 : node.rw_mutex with
    | true => simp [h3] at h
    | false =>
      simp only [h3, Bool.false_eq_true, if_false, Option.some.injEq] at h
      subst h
      cases node
      simp_all

/-- What a successful `RSFS_open` that returns a descriptor has done. -/
theorem RSFS_open_descriptor (cfg : Config) (st st1 : State) (file_name : String)
    (access_flag fd : Int)
    (hopen : RSFS_open cfg st file_name access_flag = .ok (st1, fd)) (hfd : 0 ≤ fd) :
    ∃ (dir : dir_entry) (node node1 : inode) (k : Nat),
      (access_flag = cfg.RSFS_RDONLY ∨ access_flag = cfg.RSFS_RDWR) ∧
      search_dir st file_name = some dir ∧
      getAt st.inodes dir.inode_number = some node ∧
      acquire cfg access_flag node = some node1 ∧
      find_unused st.open_file_table = some k ∧
      fd = k ∧
      st1 = { st with
        inodes := setAt st.inodes dir.inode_number node1,
        open_file_table := st.open_file_table.set k
          { used := 1, dir_entry := some dir.addr, position := 0, access_flag := access_flag } } := by
  rw [RSFS_open_eq] at hopen
  split at hopen
  · simp only [Except.ok.injEq, Prod.mk.injEq] at hopen
    omega
  · rename_i hv
    have hvalid : access_flag = cfg.RSFS_RDONLY ∨ access_flag = cfg.RSFS_RDWR := by
      by_cases h1 : access_flag = cfg.RSFS_RDONLY
      · exact Or.inl h1
      · by_cases h2 : access_flag = cfg.RSFS_RDWR
        · exact Or.inr h2
        · exact absurd ⟨h1, h2⟩ hv
    cases hs : search_dir st file_name with
    | none => simp [hs] at hopen
    | some dir =>
      simp only [hs] at hopen
      cases hl : load_inode st dir.inode_number with
      | error e => simp [hl] at hopen
      | ok node =>
        simp only [hl] at hopen
        cases ha : acquire cfg access_flag node with
        | none => simp [ha] at hopen
        | some node1 =>
          simp only [ha, allocate_open_file_entry, store_inode] at hopen
          cases hf : find_unused st.open_file_table with
          | none =>
            simp only [hf, Except.ok.injEq, Prod.mk.injEq] at hopen
            omega
          | some k =>
            simp only [hf, Except.ok.injEq, Prod.mk.injEq] at hopen
            exact ⟨dir, node, node1, k, hvalid, rfl, (load_inode_some _ _ _).1 hl, ha, rfl,
              hopen.2.symm, hopen.1.symm⟩

/-- Claim C20, close reverses admission: when `RSFS_open` of a file returns a
descriptor `fd ≥ 0` (so the file exists, the mode is valid and the caller was
admitted), the `RSFS_close(fd)` that follows returns 0 and leaves every inode,
hence the reader count and the lock of the file, and the `used` flag of every
open-file slot as they were before the open.  The flag values RSFS_RDONLY and
RSFS_RDWR differ, the table has NUM_OPEN_FILE slots and directory entries have
distinct addresses. -/
theorem close_reverses_open (cfg : Config) (st st1 : State) (file_name : String)
    (access_flag fd : Int)
    (hflags : cfg.RSFS_RDONLY ≠ cfg.RSFS_RDWR)
    (htable : st.open_file_table.length = cfg.NUM_OPEN_FILE)
    (haddr : (st.root_dir.map (fun d => d.addr)).Nodup)
    (hopen : RSFS_open cfg st file_name access_flag = .ok (st1, fd)) (hfd : 0 ≤ fd) :
    ∃ st2, RSFS_close cfg st1 fd = .ok (st2, 0) ∧
      st2.inodes = st.inodes ∧
      st2.open_file_table.map (fun e => e.used) = st.open_file_table.map (fun e => e.used) := by
  obtain ⟨dir, node, node1, k, hvalid, hs, hnode, hacq, hfind, hk, hst1⟩ :=
    RSFS_open_descriptor cfg st st1 file_name access_flag fd hopen hfd
  obtain ⟨e0, he0, hused⟩ := find_unused_some _ _ hfind
  have hklt : k < st.open_file_table.length := (List.getElem?_eq_some.1 he0).1
  have hrange : ¬ (fd < 0 ∨ fd ≥ (cfg.NUM_OPEN_FILE : Int)) := by
    rw [hk, ← htable]; omega
  have hentry : load_entry st1 fd
      = .ok { used := 1, dir_entry := some dir.addr, position := 0, access_flag := access_flag } := by
    rw [load_entry_some, hst1, hk, getAt_natCast]
    simp [List.getElem?_set, hklt]
  have hderef : deref_dir st1 (some dir.addr) = .ok dir := by
    have : deref_dir st (some dir.addr) = .ok dir := deref_dir_of_search st file_name dir haddr hs
    rw [hst1]
    exact this
  have hload : load_inode st1 dir.inode_number = .ok node1 := by
    rw [load_inode_some, hst1]
    exact getAt_setAt_self _ _ _ _ hnode
  rw [RSFS_close_eq]
  simp only [hrange, if_false, hentry, hderef, hload, release_acquire cfg access_flag node node1
    hflags hvalid hacq]
  refine ⟨_, rfl, ?_, ?_⟩
  · unfold free_open_file_entry store_inode
    have hg : getAt st1.open_file_table fd = some
        { used := 1, dir_entry := some dir.addr, position := 0, access_flag := access_flag } :=
      (load_entry_some _ _ _).1 hentry
    simp only [hg, store_entry]
    rw [hst1]
    simp only [setAt_setAt]
    exact setAt_getAt _ _ _ hnode
  · unfold free_open_file_entry store_inode
    have hg : getAt st1.open_file_table fd = some
        { used := 1, dir_entry := some dir.addr, position := 0, access_flag := access_flag } :=
      (load_entry_some _ _ _).1 hentry
    simp only [hg, store_entry]
    rw [hst1, hk, setAt_natCast]
    simp only [List.set_set, List.map_set]
    apply set_of_getElem?
    simp [List.getElem?_map, he0, hused]

/-- Claim C20 on the demo engine: after a read-only open of `g` on `two_files`
(reader count 1, lock held, slot 0 in use) and after a read-write open of `g`
(lock held, slot 0 in use), the close of descriptor 0 returns 0 and restores
the inodes and the used flags of `two_files`. -/
theorem close_reverses_open_witness :
    (∃ st2, RSFS_close demo
        { two_files with
          inodes := setAt two_files.inodes 1
            { length := 0, block := [-1, -1, -1, -1], num_current_reader := 1, rw_mutex := true },
          open_file_table := two_files.open_file_table.set 0
            { used := 1, dir_entry := some 1, position := 0, access_flag := 0 } } 0 = .ok (st2, 0) ∧
      st2.inodes = two_files.inodes ∧
      st2.open_file_table.map (fun e => e.used)
        = two_files.open_file_table.map (fun e => e.used)) ∧
    (∃ st2, RSFS_close demo
        { two_files with
          inodes := setAt two_files.inodes 1
            { length := 0, block := [-1, -1, -1, -1], num_current_reader := 0, rw_mutex := true },
          open_file_table := two_files.open_file_table.set 0
            { used := 1, dir_entry := some 1, position := 0, access_flag := 1 } } 0 = .ok (st2, 0) ∧
      st2.inodes = two_files.inodes ∧
      st2.open_file_table.map (fun e => e.used)
        = two_files.open_file_table.map (fun e => e.used)) :=
  ⟨close_reverses_open demo two_files _ "g" 0 0 (by decide) (by rfl) (by decide) (by rfl)
     (by decide),
   close_reverses_open demo two_files _ "g" 1 0 (by decide) (by rfl) (by decide) (by rfl)
     (by decide)⟩

/-! ## Readers and writers -/

theorem countP_erase_of_mem {α : Type} [DecidableEq α] (p : α → Bool) (l : List α) (a : α)
    (h : a ∈ l) : List.countP p (l.erase a) + (if p a then 1 else 0) = List.countP p l := by
  induction l with
  | nil => cases h
  | cons b bs ih =>
    by_cases hba : b = a
    · subst hba
      simp [List.countP_cons]
    · have hmem : a ∈ bs := by
        rcases List.mem_cons.1 h with h1 | h1
        · exact absurd h1.symm hba
        · exact h1
      have := ih hmem
      rw [List.erase_cons_tail (by simpa using hba)]
      simp only [List.countP_cons]
      omega

theorem getAt_set_ne {α : Type} (xs : List α) (k : Nat) (v : α) (fd : Int)
    (h : fd ≠ (k : Int)) : getAt (xs.set k v) fd = getAt xs fd := by
  unfold getAt
  by_cases hneg : fd < 0
  · simp [hneg]
  · simp only [hneg, if_false]
    have : k ≠ fd.toNat := by omega
    simp [List.getElem?_set, this]

theorem getAt_setAt_ne {α : Type} (xs : List α) (i j : Int) (v : α) (h : j ≠ i) :
    getAt (setAt xs i v) j = getAt xs j := by
  unfold setAt
  by_cases hi : i < 0
  · simp [hi]
  · simp only [hi, if_false]
    have : i = ((i.toNat : Nat) : Int) := by omega
    rw [getAt_set_ne]
    omega

theorem getAt_some_nonneg {α : Type} (xs : List α) (i : Int) (x : α) (h : getAt xs i = some x) :
    0 ≤ i := by
  unfold getAt at h
  by_cases hi : i < 0
  · simp [hi] at h
  · omega

/-- The session of a slot depends on the slot and the directory only. -/
theorem session_of_congr (st st1 : State) (fd : Int)
    (hslot : getAt st1.open_file_table fd = getAt st.open_file_table fd)
    (hdir : st1.root_dir = st.root_dir) : session_of st1 fd = session_of st fd := by
  unfold session_of deref_dir
  rw [hslot, hdir]

/-- The directory entries have distinct addresses, all below `next_addr`. -/
theorem RSFS_create_addresses (st : State) (file_name : String)
    (hlt : ∀ d ∈ st.root_dir, d.addr < st.next_addr)
    (hnd : (st.root_dir.map (fun d => d.addr)).Nodup) :
    (∀ d ∈ (RSFS_create st file_name).1.root_dir, d.addr < (RSFS_create st file_name).1.next_addr) ∧
    ((RSFS_create st file_name).1.root_dir.map (fun d => d.addr)).Nodup ∧
    (RSFS_create st file_name).1.inodes = st.inodes ∧
    (RSFS_create st file_name).1.open_file_table = st.open_file_table := by
  have hnew : ((insert_dir st file_name).1.root_dir.map (fun d => d.addr)).Nodup := by
    simp only [insert_dir]
    rw [List.map_append]
    refine List.Nodup.append hnd (by simp) ?_
    intro a ha hb
    simp only [List.map_cons, List.map_nil, List.mem_singleton] at hb
    obtain ⟨d, hd, rfl⟩ := List.mem_map.1 ha
    have := hlt d hd
    omega
  have hlt2 : ∀ d ∈ (insert_dir st file_name).1.root_dir,
      d.addr < (insert_dir st file_name).1.next_addr := by
    intro d hd
    simp only [insert_dir] at hd ⊢
    rcases List.mem_append.1 hd with h | h
    · have := hlt d h; omega
    · simp only [List.mem_singleton] at h
      subst h
      simp
  cases hs : search_dir st file_name with
  | some d =>
    have : RSFS_create st file_name = (st, -1) := by simp [RSFS_create, hs]
    rw [this]
    exact ⟨hlt, hnd, rfl, rfl⟩
  | none =>
    cases hf : find_clear st.inode_bitmap with
    | none =>
      rw [RSFS_create_none st file_name hs hf]
      exact ⟨hlt2, hnew, rfl, rfl⟩
    | some i =>
      rw [RSFS_create_some st file_name i hs hf]
      refine ⟨?_, ?_, rfl, rfl⟩
      · intro d hd
        simp only [set_inode_number, List.mem_map] at hd
        obtain ⟨d0, hd0, rfl⟩ := hd
        have := hlt2 d0 hd0
        simp only [set_inode_number]
        split <;> simpa using this
      · have hmap : ((set_inode_number
            { (insert_dir st file_name).1 with inode_bitmap := st.inode_bitmap.set i 1 }
            st.next_addr i).root_dir.map (fun d => d.addr))
            = (insert_dir st file_name).1.root_dir.map (fun d => d.addr) := by
          simp only [set_inode_number, List.map_map]
          apply List.map_congr_left
          intro d _
          simp only [Function.comp]
          split <;> rfl
        rw [hmap]
        exact hnew

theorem create_all_addresses (names : List String) :
    ∀ st : State, (∀ d ∈ st.root_dir, d.addr < st.next_addr) →
      (st.root_dir.map (fun d => d.addr)).Nodup →
      ((create_all st names).1.root_dir.map (fun d => d.addr)).Nodup ∧
      (create_all st names).1.inodes = st.inodes ∧
      (create_all st names).1.open_file_table = st.open_file_table := by
  induction names with
  | nil => intro st _ hnd; exact ⟨hnd, rfl, rfl⟩
  | cons n ns ih =>
    intro st hlt hnd
    obtain ⟨h1, h2, h3, h4⟩ := RSFS_create_addresses st n hlt hnd
    obtain ⟨g1, g2, g3⟩ := ih (RSFS_create st n).1 h1 h2
    simp only [create_all]
    exact ⟨g1, g2.trans h3, g3.trans h4⟩

theorem getAt_replicate {α : Type} (n : Nat) (a x : α) (i : Int)
    (h : getAt (List.replicate n a) i = some x) : x = a := by
  unfold getAt at h
  split at h
  · cases h
  · rw [List.getElem?_replicate] at h
    split at h
    · simpa using h.symm
    · cases h

/-- The engine is idle after initialisation and the creation of files. -/
theorem Admitted_start (cfg : Config) (heap : Nat → Nat → Nat) (names : List String) :
    Admitted cfg (create_all (RSFS_init cfg heap) names).1 [] := by
  obtain ⟨h1, h2, _⟩ := create_all_addresses names (RSFS_init cfg heap)
    (by simp [RSFS_init]) (by simp [RSFS_init])
  refine ⟨List.nodup_nil, by simp, ?_, h1⟩
  intro i node hnode
  rw [h2] at hnode
  have hn := getAt_replicate _ _ _ _ hnode
  subst hn
  simp [readers, writers]

/-- The counting part of the invariant after an admission on the inode, with
(`s = 1`) or without (`s = 0`) a new session of the flag. -/
theorem acquire_counted (cfg : Config) (access_flag : Int) (node node1 : inode) (R W s : Nat)
    (hflags : cfg.RSFS_RDONLY ≠ cfg.RSFS_RDWR)
    (hvalid : access_flag = cfg.RSFS_RDONLY ∨ access_flag = cfg.RSFS_RDWR)
    (hacq : acquire cfg access_flag node = some node1) (hs : s ≤ 1)
    (h1 : (R : Int) ≤ node.num_current_reader)
    (h2 : 1 ≤ node.num_current_reader → node.rw_mutex = true)
    (h3 : 1 ≤ W → node.rw_mutex = true ∧ node.num_current_reader = 0)
    (h4 : W ≤ 1) :
    ((R + (if access_flag = cfg.RSFS_RDONLY then s else 0) : Nat) : Int)
        ≤ node1.num_current_reader ∧
    (1 ≤ node1.num_current_reader → node1.rw_mutex = true) ∧
    (1 ≤ W + (if access_flag = cfg.RSFS_RDWR then s else 0) →
      node1.rw_mutex = true ∧ node1.num_current_reader = 0) ∧
    W + (if access_flag = cfg.RSFS_RDWR then s else 0) ≤ 1 := by
  unfold acquire at hacq
  rcases hvalid with hv | hv
  · have hne : ¬ access_flag = cfg.RSFS_RDWR := by rw [hv]; exact hflags
    simp only [hv, if_true] at hacq
    simp only [hv, if_true, hflags, if_false, Nat.add_zero]
    by_cases hc : node.num_current_reader + 1 = 1
    · simp only [hc, if_true] at hacq
      cases hl : node.rw_mutex with
      | true => simp [hl] at hacq
      | false =>
        simp only [hl, Bool.false_eq_true, if_false, Option.some.injEq] at hacq
        subst hacq
        have hW : W = 0 := by
          by_contra hW0
          have := (h3 (by omega)).1
          rw [hl] at this
          cases this
        subst hW
        refine ⟨by simp only [Nat.cast_add]; omega, fun _ => rfl, fun h => absurd h (by omega),
          by omega⟩
    · simp only [hc, if_false, Option.some.injEq] at hacq
      subst hacq
      have hc1 : 1 ≤ node.num_current_reader := by omega
      have hW : W = 0 := by
        by_contra hW0
        have := (h3 (by omega)).2
        omega
      subst hW
      refine ⟨by simp only [Nat.cast_add]; omega, fun _ => h2 hc1, fun h => absurd h (by omega),
        by omega⟩
  · have hne : ¬ access_flag = cfg.RSFS_RDONLY := by rw [hv]; exact fun e => hflags e.symm
    have hne2 : ¬ cfg.RSFS_RDWR = cfg.RSFS_RDONLY := fun e => hflags e.symm
    simp only [hne, if_false] at hacq
    simp only [hv, hne2, if_true, if_false, Nat.add_zero]
    cases hl : node.rw_mutex with
    | true => simp [hl] at hacq
    | false =>
      simp only [hl, Bool.false_eq_true, if_false, Option.some.injEq] at hacq
      subst hacq
      have hW : W = 0 := by
        by_contra hW0
        have := (h3 (by omega)).1
        rw [hl] at this
        cases this
      have hc0 : node.num_current_reader = 0 := by
        by_contra hc
        have : 1 ≤ node.num_current_reader := by omega
        have := h2 this
        rw [hl] at this
        cases this
      subst hW
      refine ⟨h1, fun _ => rfl, fun _ => ⟨rfl, hc0⟩, by omega⟩

/-- The counting part of the invariant after the release of a session of the
flag on the inode: `R` and `W` count the sessions that are left. -/
theorem release_counted (cfg : Config) (access_flag : Int) (node : inode) (R W : Nat)
    (hflags : cfg.RSFS_RDONLY ≠ cfg.RSFS_RDWR)
    (hvalid : access_flag = cfg.RSFS_RDONLY ∨ access_flag = cfg.RSFS_RDWR)
    (h1 : ((R + (if access_flag = cfg.RSFS_RDONLY then 1 else 0) : Nat) : Int)
      ≤ node.num_current_reader)
    (h2 : 1 ≤ node.num_current_reader → node.rw_mutex = true)
    (h3 : 1 ≤ W + (if access_flag = cfg.RSFS_RDWR then 1 else 0) →
      node.rw_mutex = true ∧ node.num_current_reader = 0)
    (h4 : W + (if access_flag = cfg.RSFS_RDWR then 1 else 0) ≤ 1) :
    (R : Int) ≤ (release cfg access_flag node).num_current_reader ∧
    (1 ≤ (release cfg access_flag node).num_current_reader →
      (release cfg access_flag node).rw_mutex = true) ∧
    (1 ≤ W → (release cfg access_flag node).rw_mutex = true ∧
      (release cfg access_flag node).num_current_reader = 0) ∧
    W ≤ 1 := by
  unfold release
  rcases hvalid with hv | hv
  · have hne : ¬ cfg.RSFS_RDONLY = cfg.RSFS_RDWR := hflags
    simp only [hv, if_true, hne, if_false, Nat.add_zero] at h1 h3 h4 ⊢
    simp only [Nat.cast_add, Nat.cast_one] at h1
    have hW : W = 0 := by
      by_contra hW0
      have := (h3 (by omega)).2
      omega
    subst hW
    by_cases hc : node.num_current_reader - 1 = 0
    · simp only [hc, if_true]
      refine ⟨by omega, fun h => absurd h (by omega), fun h => absurd h (by omega), by omega⟩
    · simp only [hc, if_false]
      refine ⟨by omega, fun _ => h2 (by omega), fun h => absurd h (by omega), by omega⟩
  · have hne2 : ¬ cfg.RSFS_RDWR = cfg.RSFS_RDONLY := fun e => hflags e.symm
    simp only [hv, if_true, hne2, if_false, Nat.add_zero] at h1 h3 h4 ⊢
    have h5 := h3 (by omega)
    have hW : W = 0 := by omega
    subst hW
    refine ⟨by omega, fun h => absurd h (by omega), fun h => absurd h (by omega), by omega⟩

theorem getAt_setAt_some {α : Type} (xs : List α) (i j : Int) (v x : α)
    (h : getAt xs i = some x) : ∃ y, getAt (setAt xs j v) i = some y := by
  by_cases hij : i = j
  · subst hij
    exact ⟨v, getAt_setAt_self _ _ _ _ h⟩
  · exact ⟨x, by rw [getAt_setAt_ne _ _ _ _ hij]; exact h⟩

theorem counts_congr (cfg : Config) (st st1 : State) (fds : List Int) (i : Int)
    (h : ∀ fd ∈ fds, session_of st1 fd = session_of st fd) :
    readers cfg st1 fds i = readers cfg st fds i ∧
    writers cfg st1 fds i = writers cfg st fds i := by
  unfold readers writers
  constructor <;>
  · apply List.countP_congr
    intro fd hfd
    rw [h fd hfd]

/-- What an `RSFS_open` that returns a negative code has done: nothing, or the
admission on the inode of the file. -/
theorem RSFS_open_refused (cfg : Config) (st st1 : State) (file_name : String)
    (access_flag fd : Int)
    (hopen : RSFS_open cfg st file_name access_flag = .ok (st1, fd)) (hfd : fd < 0) :
    st1 = st ∨
    ∃ (dir : dir_entry) (node node1 : inode),
      (access_flag = cfg.RSFS_RDONLY ∨ access_flag = cfg.RSFS_RDWR) ∧
      getAt st.inodes dir.inode_number = some node ∧
      acquire cfg access_flag node = some node1 ∧
      st1 = { st with inodes := setAt st.inodes dir.inode_number node1 } := by
  rw [RSFS_open_eq] at hopen
  split at hopen
  · simp only [Except.ok.injEq, Prod.mk.injEq] at hopen
    exact Or.inl hopen.1.symm
  · rename_i hv
    have hvalid : access_flag = cfg.RSFS_RDONLY ∨ access_flag = cfg.RSFS_RDWR := by
      by_cases h1 : access_flag = cfg.RSFS_RDONLY
      · exact Or.inl h1
      · by_cases h2 : access_flag = cfg.RSFS_RDWR
        · exact Or.inr h2
        · exact absurd ⟨h1, h2⟩ hv
    cases hs : search_dir st file_name with
    | none => simp [hs] at hopen
    | some dir =>
      simp only [hs] at hopen
      cases hl : load_inode st dir.inode_number with
      | error e => simp [hl] at hopen
      | ok node =>
        simp only [hl] at hopen
        cases ha : acquire cfg access_flag node with
        | none => simp [ha] at hopen
        | some node1 =>
          simp only [ha, allocate_open_file_entry, store_inode] at hopen
          cases hf : find_unused st.open_file_table with
          | none =>
            simp only [hf, Except.ok.injEq, Prod.mk.injEq] at hopen
            exact Or.inr ⟨dir, node, node1, hvalid, (load_inode_some _ _ _).1 hl, ha,
              hopen.1.symm⟩
          | some k =>
            simp only [hf, Except.ok.injEq, Prod.mk.injEq] at hopen
            omega

/-- The invariant is kept when the inode of a file is admitted without a new
session. -/
theorem Admitted_refused (cfg : Config) (st st1 : State) (fds : List Int)
    (file_name : String) (access_flag fd : Int)
    (hflags : cfg.RSFS_RDONLY ≠ cfg.RSFS_RDWR) (hA : Admitted cfg st fds)
    (hopen : RSFS_open cfg st file_name access_flag = .ok (st1, fd)) (hfd : fd < 0) :
    Admitted cfg st1 fds := by
  rcases RSFS_open_refused cfg st st1 file_name access_flag fd hopen hfd with h | h
  · rw [h]; exact hA
  · obtain ⟨dir, node, node1, hvalid, hnode, hacq, hst1⟩ := h
    have hsess : ∀ fd ∈ fds, session_of st1 fd = session_of st fd := by
      intro fd' _
      apply session_of_congr <;> rw [hst1]
    refine ⟨hA.distinct, ?_, ?_, by rw [hst1]; exact hA.addresses⟩
    · intro fd' hfd'
      obtain ⟨e, flag, i, nd, he, hu, hs, hv, hn⟩ := hA.bound fd' hfd'
      obtain ⟨y, hy⟩ := getAt_setAt_some st.inodes i dir.inode_number node1 nd hn
      exact ⟨e, flag, i, y, by rw [hst1]; exact he, hu, by rw [hsess fd' hfd']; exact hs, hv,
        by rw [hst1]; exact hy⟩
    · intro i nd hnd
      rw [(counts_congr cfg st st1 fds i hsess).1, (counts_congr cfg st st1 fds i hsess).2]
      by_cases hi : i = dir.inode_number
      · subst hi
        have hnd1 : nd = node1 := by
          rw [hst1] at hnd
          have := getAt_setAt_self st.inodes dir.inode_number node1 node hnode
          rw [this] at hnd
          exact (Option.some.inj hnd).symm
        subst hnd1
        obtain ⟨h1, h2, h3, h4⟩ := hA.counted dir.inode_number node hnode
        have := acquire_counted cfg access_flag node nd _ _ 0 hflags hvalid hacq (by omega)
          h1 h2 h3 h4
        simpa using this
      · rw [hst1] at hnd
        rw [getAt_setAt_ne _ _ _ _ hi] at hnd
        exact hA.counted i nd hnd

/-- The invariant is kept when an open returns a descriptor. -/
theorem Admitted_opened (cfg : Config) (st st1 : State) (fds : List Int)
    (file_name : String) (access_flag fd : Int)
    (hflags : cfg.RSFS_RDONLY ≠ cfg.RSFS_RDWR) (hA : Admitted cfg st fds)
    (hopen : RSFS_open cfg st file_name access_flag = .ok (st1, fd)) (hfd : 0 ≤ fd) :
    Admitted cfg st1 (fd :: fds) := by
  obtain ⟨dir, node, node1, k, hvalid, hs, hnode, hacq, hfind, hk, hst1⟩ :=
    RSFS_open_descriptor cfg st st1 file_name access_flag fd hopen hfd
  obtain ⟨e0, he0, hused⟩ := find_unused_some _ _ hfind
  have hklt : k < st.open_file_table.length := (List.getElem?_eq_some.1 he0).1
  have hroot : st1.root_dir = st.root_dir := by rw [hst1]
  have hfresh : fd ∉ fds := by
    intro hmem
    obtain ⟨e, _, _, _, he, hu, _⟩ := hA.bound fd hmem
    rw [hk, getAt_natCast, he0] at he
    have : e0 = e := Option.some.inj he
    rw [this] at hused
    omega
  have hslot : ∀ fd' ∈ fds, getAt st1.open_file_table fd' = getAt st.open_file_table fd' := by
    intro fd' hfd'
    have hne : fd' ≠ (k : Int) := by
      intro heq
      exact hfresh (by rw [hk, ← heq]; exact hfd')
    rw [hst1]
    exact getAt_set_ne _ _ _ _ hne
  have hsess : ∀ fd' ∈ fds, session_of st1 fd' = session_of st fd' := by
    intro fd' hfd'
    exact session_of_congr st st1 fd' (hslot fd' hfd') hroot
  have hnew : session_of st1 fd = some (access_flag, dir.inode_number) := by
    have hg : getAt st1.open_file_table fd = some
        { used := 1, dir_entry := some dir.addr, position := 0, access_flag := access_flag } := by
      rw [hst1, hk, getAt_natCast]
      simp [List.getElem?_set, hklt]
    have hd : deref_dir st1 (some dir.addr) = .ok dir := by
      have := deref_dir_of_search st file_name dir hA.addresses hs
      unfold deref_dir at this ⊢
      rw [hroot]
      exact this
    unfold session_of
    rw [hg]
    simp only [hd]
  refine ⟨List.nodup_cons.2 ⟨hfresh, hA.distinct⟩, ?_, ?_, by rw [hroot]; exact hA.addresses⟩
  · intro fd' hfd'
    rcases List.mem_cons.1 hfd' with h | h
    · subst h
      refine ⟨open_file_entry.mk 1 (some dir.addr) 0 access_flag, access_flag,
        dir.inode_number, node1, ?_, rfl, hnew, hvalid, ?_⟩
      · rw [hst1, hk, getAt_natCast]
        simp [List.getElem?_set, hklt]
      · rw [hst1]
        exact getAt_setAt_self _ _ _ _ hnode
    · obtain ⟨e, flag, i, nd, he, hu, hs', hv, hn⟩ := hA.bound fd' h
      obtain ⟨y, hy⟩ := getAt_setAt_some st.inodes i dir.inode_number node1 nd hn
      exact ⟨e, flag, i, y, by rw [hslot fd' h]; exact he, hu, by rw [hsess fd' h]; exact hs', hv,
        by rw [hst1]; exact hy⟩
  · intro i nd hnd
    have hR : readers cfg st1 (fd :: fds) i = readers cfg st fds i +
        (if access_flag = cfg.RSFS_RDONLY ∧ dir.inode_number = i then 1 else 0) := by
      have := (counts_congr cfg st st1 fds i hsess).1
      unfold readers at this ⊢
      rw [List.countP_cons, this, hnew]
      simp only [Option.some.injEq, Prod.mk.injEq, decide_eq_true_eq]
    have hW : writers cfg st1 (fd :: fds) i = writers cfg st fds i +
        (if access_flag = cfg.RSFS_RDWR ∧ dir.inode_number = i then 1 else 0) := by
      have := (counts_congr cfg st st1 fds i hsess).2
      unfold writers at this ⊢
      rw [List.countP_cons, this, hnew]
      simp only [Option.some.injEq, Prod.mk.injEq, decide_eq_true_eq]
    rw [hR, hW]
    by_cases hi : i = dir.inode_number
    · subst hi
      have hnd1 : nd = node1 := by
        rw [hst1] at hnd
        have := getAt_setAt_self st.inodes dir.inode_number node1 node hnode
        simp only at hnd
        rw [this] at hnd
        exact (Option.some.inj hnd).symm
      subst hnd1
      obtain ⟨h1, h2, h3, h4⟩ := hA.counted dir.inode_number node hnode
      have := acquire_counted cfg access_flag node nd _ _ 1 hflags hvalid hacq (by omega)
        h1 h2 h3 h4
      simpa using this
    · have hne : ¬ dir.inode_number = i := fun e => hi e.symm
      simp only [hne, and_false, if_false, Nat.add_zero]
      rw [hst1] at hnd
      simp only at hnd
      rw [getAt_setAt_ne _ _ _ _ hi] at hnd
      exact hA.counted i nd hnd

theorem session_of_some (st : State) (fd : Int) (e : open_file_entry) (flag i : Int)
    (he : getAt st.open_file_table fd = some e) (hs : session_of st fd = some (flag, i)) :
    e.access_flag = flag ∧ ∃ d, deref_dir st e.dir_entry = .ok d ∧ d.inode_number = i := by
  unfold session_of at hs
  rw [he] at hs
  simp only at hs
  cases hd : deref_dir st e.dir_entry with
  | error err => simp [hd] at hs
  | ok d =>
    simp only [hd, Option.some.injEq, Prod.mk.injEq] at hs
    exact ⟨hs.1, d, rfl, hs.2⟩

/-- The invariant is kept when an open descriptor is closed. -/
theorem Admitted_closed (cfg : Config) (st st1 : State) (fds : List Int) (fd r : Int)
    (hflags : cfg.RSFS_RDONLY ≠ cfg.RSFS_RDWR) (hA : Admitted cfg st fds) (hmem : fd ∈ fds)
    (hclose : RSFS_close cfg st fd = .ok (st1, r)) :
    Admitted cfg st1 (fds.erase fd) := by
  obtain ⟨e, flag, i0, node, he, hu, hs, hvalid, hnode⟩ := hA.bound fd hmem
  obtain ⟨hflag, d, hd, hdi⟩ := session_of_some st fd e flag i0 he hs
  subst hflag hdi
  have hsub : ∀ fd' ∈ fds.erase fd, fd' ∈ fds ∧ fd' ≠ fd := by
    intro fd' h
    exact ⟨List.mem_of_mem_erase h, fun heq => by
      rw [heq] at h
      exact (List.Nodup.not_mem_erase hA.distinct) h⟩
  have hRW : ∀ i, readers cfg st (fds.erase fd) i
        + (if e.access_flag = cfg.RSFS_RDONLY ∧ d.inode_number = i then 1 else 0) = readers cfg st fds i ∧
      writers cfg st (fds.erase fd) i
        + (if e.access_flag = cfg.RSFS_RDWR ∧ d.inode_number = i then 1 else 0) = writers cfg st fds i := by
    intro i
    have h1 := countP_erase_of_mem
      (fun fd => decide (session_of st fd = some (cfg.RSFS_RDONLY, i))) fds fd hmem
    have h2 := countP_erase_of_mem
      (fun fd => decide (session_of st fd = some (cfg.RSFS_RDWR, i))) fds fd hmem
    simp only [hs, Option.some.injEq, Prod.mk.injEq, decide_eq_true_eq] at h1 h2
    exact ⟨h1, h2⟩
  rw [RSFS_close_eq] at hclose
  split at hclose
  · simp only [Except.ok.injEq, Prod.mk.injEq] at hclose
    rw [← hclose.1]
    refine ⟨List.Nodup.erase _ hA.distinct, fun fd' h => hA.bound fd' (hsub fd' h).1, ?_,
      hA.addresses⟩
    intro i nd hnd
    obtain ⟨h1, h2, h3, h4⟩ := hA.counted i nd hnd
    obtain ⟨g1, g2⟩ := hRW i
    refine ⟨by omega, h2, fun h => h3 (by omega), by omega⟩
  · have hle : load_entry st fd = .ok e := (load_entry_some _ _ _).2 he
    have hli : load_inode st d.inode_number = .ok node := by
      rw [load_inode_some]; exact hnode
    simp only [hle, hd, hli, Except.ok.injEq, Prod.mk.injEq] at hclose
    have hst1 : st1 = { st with
        inodes := setAt st.inodes d.inode_number (release cfg e.access_flag node),
        open_file_table := setAt st.open_file_table fd { e with used := 0 } } := by
      rw [← hclose.1]
      unfold free_open_file_entry store_inode
      simp only [he, store_entry]
    have hroot : st1.root_dir = st.root_dir := by rw [hst1]
    have hsess : ∀ fd' ∈ fds.erase fd, session_of st1 fd' = session_of st fd' := by
      intro fd' h
      apply session_of_congr st st1 fd' _ hroot
      rw [hst1]
      exact getAt_setAt_ne _ _ _ _ (hsub fd' h).2
    refine ⟨List.Nodup.erase _ hA.distinct, ?_, ?_, by rw [hroot]; exact hA.addresses⟩
    · intro fd' h
      obtain ⟨e', flag', i, nd, he', hu', hs', hv', hn'⟩ := hA.bound fd' (hsub fd' h).1
      obtain ⟨y, hy⟩ := getAt_setAt_some st.inodes i d.inode_number (release cfg e.access_flag node) nd hn'
      refine ⟨e', flag', i, y, ?_, hu', by rw [hsess fd' h]; exact hs', hv',
        by rw [hst1]; exact hy⟩
      rw [hst1]
      simp only
      rw [getAt_setAt_ne _ _ _ _ (hsub fd' h).2]
      exact he'
    · intro i nd hnd
      rw [(counts_congr cfg st st1 _ i hsess).1, (counts_congr cfg st st1 _ i hsess).2]
      obtain ⟨g1, g2⟩ := hRW i
      by_cases hi : i = d.inode_number
      · subst hi
        have hnd1 : nd = release cfg e.access_flag node := by
          rw [hst1] at hnd
          simp only at hnd
          rw [getAt_setAt_self st.inodes d.inode_number _ node hnode] at hnd
          exact (Option.some.inj hnd).symm
        subst hnd1
        obtain ⟨h1, h2, h3, h4⟩ := hA.counted d.inode_number node hnode
        simp only [and_true] at g1 g2
        apply release_counted cfg e.access_flag node _ _ hflags hvalid
        · rw [g1]; exact h1
        · exact h2
        · rw [g2]; exact h3
        · rw [g2]; exact h4
      · have hne : ¬ d.inode_number = i := fun h => hi h.symm
        simp only [hne, and_false, if_false, Nat.add_zero] at g1 g2
        rw [g1, g2]
        rw [hst1] at hnd
        simp only at hnd
        rw [getAt_setAt_ne _ _ _ _ hi] at hnd
        exact hA.counted i nd hnd

/-- Every reachable state satisfies the invariant. -/
theorem Reach_admitted (cfg : Config) (heap : Nat → Nat → Nat) (names : List String)
    (hflags : cfg.RSFS_RDONLY ≠ cfg.RSFS_RDWR) (st : State) (fds : List Int)
    (h : Reach cfg heap names st fds) : Admitted cfg st fds := by
  induction h with
  | start => exact Admitted_start cfg heap names
  | opened st st1 fds file_name access_flag fd _ hopen hfd ih =>
    exact Admitted_opened cfg st st1 fds file_name access_flag fd hflags ih hopen hfd
  | refused st st1 fds file_name access_flag fd _ hopen hfd ih =>
    exact Admitted_refused cfg st st1 fds file_name access_flag fd hflags ih hopen hfd
  | closed st st1 fds fd r _ hmem hclose ih =>
    exact Admitted_closed cfg st st1 fds fd r hflags ih hmem hclose

/-- Under the invariant a file has at most one writer session, and none
together with a reader session. -/
theorem Admitted_exclusion (cfg : Config) (st : State) (fds : List Int)
    (hA : Admitted cfg st fds) (i : Int) :
    writers cfg st fds i ≤ 1 ∧ (writers cfg st fds i = 1 → readers cfg st fds i = 0) := by
  cases hn : getAt st.inodes i with
  | none =>
    have hz : ∀ flag, fds.countP (fun fd => session_of st fd = some (flag, i)) = 0 := by
      intro flag
      rw [List.countP_eq_zero]
      intro fd hfd
      obtain ⟨e, flag', i', nd, _, _, hs, _, hnd⟩ := hA.bound fd hfd
      rw [hs]
      simp only [Option.some.injEq, Prod.mk.injEq, decide_eq_true_eq, not_and]
      intro _ hi
      rw [hi, hn] at hnd
      cases hnd
    unfold writers readers
    rw [hz, hz]
    exact ⟨by omega, fun _ => rfl⟩
  | some node =>
    obtain ⟨h1, h2, h3, h4⟩ := hA.counted i node hn
    refine ⟨h4, fun hw => ?_⟩
    have := (h3 (by omega)).2
    omega

/-- Under the invariant a second read-only open of a file that a read-only
open has just been admitted to is admitted as well, and its descriptor differs. -/
theorem second_reader_admitted (cfg : Config) (st st1 : State) (fds : List Int)
    (file_name : String) (fd1 : Int)
    (hflags : cfg.RSFS_RDONLY ≠ cfg.RSFS_RDWR) (hA : Admitted cfg st fds)
    (hopen : RSFS_open cfg st file_name cfg.RSFS_RDONLY = .ok (st1, fd1)) (hfd : 0 ≤ fd1) :
    ∃ st2 fd2, RSFS_open cfg st1 file_name cfg.RSFS_RDONLY = .ok (st2, fd2) ∧ fd2 ≠ fd1 ∧
      (find_unused st1.open_file_table ≠ none → 0 ≤ fd2) := by
  have hA1 := Admitted_opened cfg st st1 fds file_name _ fd1 hflags hA hopen hfd
  obtain ⟨dir, node, node1, k, hvalid, hs, hnode, hacq, hfind, hk, hst1⟩ :=
    RSFS_open_descriptor cfg st st1 file_name _ fd1 hopen hfd
  obtain ⟨e0, he0, _⟩ := find_unused_some _ _ hfind
  have hklt : k < st.open_file_table.length := (List.getElem?_eq_some.1 he0).1
  have hs1 : search_dir st1 file_name = some dir := by
    unfold search_dir at hs ⊢
    rw [hst1]
    exact hs
  have hn1 : getAt st1.inodes dir.inode_number = some node1 := by
    rw [hst1]
    exact getAt_setAt_self _ _ _ _ hnode
  have hl1 : load_inode st1 dir.inode_number = .ok node1 := (load_inode_some _ _ _).2 hn1
  have hcount : 1 ≤ node1.num_current_reader := by
    obtain ⟨h1, _, _, _⟩ := hA1.counted dir.inode_number node1 hn1
    obtain ⟨e, flag, i, nd, he, _, hsess, _, _⟩ := hA1.bound fd1 (List.mem_cons_self _ _)
    have hslot : getAt st1.open_file_table fd1
        = some (open_file_entry.mk 1 (some dir.addr) 0 cfg.RSFS_RDONLY) := by
      rw [hst1, hk, getAt_natCast]
      simp [List.getElem?_set, hklt]
    have hd1 : deref_dir st1 (some dir.addr) = .ok dir := by
      have := deref_dir_of_search st1 file_name dir hA1.addresses hs1
      exact this
    have hsession : session_of st1 fd1 = some (cfg.RSFS_RDONLY, dir.inode_number) := by
      unfold session_of
      rw [hslot]
      simp only [hd1]
    have hpos : 1 ≤ readers cfg st1 (fd1 :: fds) dir.inode_number := by
      unfold readers
      rw [List.countP_cons, hsession]
      simp
    omega
  have hacq2 : acquire cfg cfg.RSFS_RDONLY node1
      = some { node1 with num_current_reader := node1.num_current_reader + 1 } := by
    unfold acquire
    have : ¬ (node1.num_current_reader + 1 = 1) := by omega
    simp [this]
  have hv : ¬ (cfg.RSFS_RDONLY ≠ cfg.RSFS_RDONLY ∧ cfg.RSFS_RDONLY ≠ cfg.RSFS_RDWR) := by
    intro h; exact h.1 rfl
  have hsnd : ∀ (s : State) (flag : Int) (dd : dir_entry),
      (allocate_open_file_entry s flag dd).2
        = match find_unused s.open_file_table with
          | some j => (j : Int)
          | none => -1 := by
    intro s flag dd
    unfold allocate_open_file_entry
    cases find_unused s.open_file_table <;> rfl
  have htab : (store_inode st1 dir.inode_number
      { node1 with num_current_reader := node1.num_current_reader + 1 }).open_file_table
      = st1.open_file_table := rfl
  rw [RSFS_open_eq]
  simp only [hv, if_false, hs1, hl1, hacq2]
  refine ⟨(allocate_open_file_entry (store_inode st1 dir.inode_number
      { node1 with num_current_reader := node1.num_current_reader + 1 }) cfg.RSFS_RDONLY dir).1,
    (allocate_open_file_entry (store_inode st1 dir.inode_number
      { node1 with num_current_reader := node1.num_current_reader + 1 }) cfg.RSFS_RDONLY dir).2,
    rfl, ?_, ?_⟩
  · rw [hsnd, htab]
    cases hf2 : find_unused st1.open_file_table with
    | none => simp only; omega
    | some k2 =>
      simp only
      obtain ⟨e2, he2, hu2⟩ := find_unused_some _ _ hf2
      intro heq
      have hkk : k2 = k := by omega
      rw [hkk, hst1] at he2
      simp only [List.getElem?_set, hklt, if_true] at he2
      have : e2 = open_file_entry.mk 1 (some dir.addr) 0 cfg.RSFS_RDONLY :=
        (Option.some.inj he2).symm
      rw [this] at hu2
      simp at hu2
  · intro hne
    rw [hsnd, htab]
    cases hf2 : find_unused st1.open_file_table with
    | none => exact absurd hf2 hne
    | some k2 => exact Int.ofNat_nonneg k2

/-- Under the invariant a read-only open of an existing file is admitted when
the lock of the file is free or the file has a reader session. -/
theorem reader_enabled (cfg : Config) (st : State) (fds : List Int) (file_name : String)
    (dir : dir_entry) (node : inode) (hA : Admitted cfg st fds)
    (hs : search_dir st file_name = some dir)
    (hnode : load_inode st dir.inode_number = .ok node)
    (hfree : node.rw_mutex = false ∨ 1 ≤ readers cfg st fds dir.inode_number) :
    ∃ st1 fd1, RSFS_open cfg st file_name cfg.RSFS_RDONLY = .ok (st1, fd1) ∧
      (find_unused st.open_file_table ≠ none → 0 ≤ fd1) := by
  have hacq : ∃ node1, acquire cfg cfg.RSFS_RDONLY node = some node1 := by
    unfold acquire
    simp only [if_true]
    by_cases hc : node.num_current_reader + 1 = 1
    · simp only [hc, if_true]
      rcases hfree with hf | hf
      · simp [hf]
      · obtain ⟨h1, _, _, _⟩ := hA.counted dir.inode_number node ((load_inode_some _ _ _).1 hnode)
        omega
    · simp [hc]
  obtain ⟨node1, hacq⟩ := hacq
  have hv : ¬ (cfg.RSFS_RDONLY ≠ cfg.RSFS_RDONLY ∧ cfg.RSFS_RDONLY ≠ cfg.RSFS_RDWR) := by
    intro h; exact h.1 rfl
  rw [RSFS_open_eq]
  simp only [hv, if_false, hs, hnode, hacq]
  refine ⟨(allocate_open_file_entry (store_inode st dir.inode_number node1)
      cfg.RSFS_RDONLY dir).1,
    (allocate_open_file_entry (store_inode st dir.inode_number node1) cfg.RSFS_RDONLY dir).2,
    rfl, ?_⟩
  intro hne
  have htab : (store_inode st dir.inode_number node1).open_file_table = st.open_file_table :=
    rfl
  unfold allocate_open_file_entry
  rw [htab]
  cases hf2 : find_unused st.open_file_table with
  | none => exact absurd hf2 hne
  | some k2 => exact Int.ofNat_nonneg k2

/-- The exclusion of readers and writers at session granularity, which holds
on the code, and the conditions under which a reader is admitted: in every state
reachable from the initialised engine with its files created, by `RSFS_open`
and `RSFS_close` steps (an open that would wait is not a step, a close is a
step only on a descriptor that an open has returned and that is not yet
closed), the open descriptors are distinct, every file (inode) has at most one
read-write session, and a file that has one has no read-only session; a
read-only open of an existing file is admitted when the lock of the file is
free or the file has a reader session; and when a read-only open of a file is
admitted and returns a descriptor, a second read-only open of the same file is
admitted as well and returns another descriptor.  A descriptor returned is not
negative while a slot is free.  The flag values RSFS_RDONLY and RSFS_RDWR
differ. -/
theorem readers_writers_exclusion (cfg : Config) (heap : Nat → Nat → Nat)
    (names : List String) (hflags : cfg.RSFS_RDONLY ≠ cfg.RSFS_RDWR)
    (st : State) (fds : List Int) (h : Reach cfg heap names st fds) :
    fds.Nodup ∧
    (∀ i, writers cfg st fds i ≤ 1 ∧ (writers cfg st fds i = 1 → readers cfg st fds i = 0)) ∧
    (∀ file_name dir node, search_dir st file_name = some dir →
      load_inode st dir.inode_number = .ok node →
      (node.rw_mutex = false ∨ 1 ≤ readers cfg st fds dir.inode_number) →
      ∃ st1 fd1, RSFS_open cfg st file_name cfg.RSFS_RDONLY = .ok (st1, fd1) ∧
        (find_unused st.open_file_table ≠ none → 0 ≤ fd1)) ∧
    (∀ file_name st1 fd1,
      RSFS_open cfg st file_name cfg.RSFS_RDONLY = .ok (st1, fd1) → 0 ≤ fd1 →
      ∃ st2 fd2, RSFS_open cfg st1 file_name cfg.RSFS_RDONLY = .ok (st2, fd2) ∧ fd2 ≠ fd1 ∧
        (find_unused st1.open_file_table ≠ none → 0 ≤ fd2)) := by
  have hA := Reach_admitted cfg heap names hflags st fds h
  exact ⟨hA.distinct, fun i => Admitted_exclusion cfg st fds hA i,
    fun file_name dir node hs hn hfree => reader_enabled cfg st fds file_name dir node hA hs hn hfree,
    fun file_name st1 fd1 hopen hfd =>
      second_reader_admitted cfg st st1 fds file_name fd1 hflags hA hopen hfd⟩

/-- The exclusion of readers and writers on the demo engine: in the state reached by a read-only open of
`f` (descriptor 0) and a read-write open of `g` (descriptor 1) every inode has
at most one writer session and none next to a reader session; and in the state
with the two files and no session a read-only open of `f` is admitted, and
after it (state `one_reader`, descriptor 0) a second one is admitted and
returns a descriptor that is neither 0 nor negative. -/
theorem readers_writers_exclusion_witness :
    (([1, 0] : List Int).Nodup ∧
      ∀ i, writers demo reader_and_writer [1, 0] i ≤ 1 ∧
        (writers demo reader_and_writer [1, 0] i = 1 →
          readers demo reader_and_writer [1, 0] i = 0)) ∧
    (∃ st1 fd1, RSFS_open demo two_files "f" demo.RSFS_RDONLY = .ok (st1, fd1) ∧
      (find_unused two_files.open_file_table ≠ none → 0 ≤ fd1)) ∧
    (∃ st2 fd2, RSFS_open demo one_reader "f" demo.RSFS_RDONLY = .ok (st2, fd2) ∧ fd2 ≠ 0 ∧
      (find_unused one_reader.open_file_table ≠ none → 0 ≤ fd2)) :=
  have hw := readers_writers_exclusion demo zero_heap ["f", "g"] (by decide)
    reader_and_writer [1, 0]
    (Reach.opened _ _ _ "g" 1 1
      (Reach.opened _ _ _ "f" 0 0 Reach.start (by rfl) (by decide)) (by rfl) (by decide))
  have hr := readers_writers_exclusion demo zero_heap ["f", "g"] (by decide) two_files []
    Reach.start
  ⟨⟨hw.1, hw.2.1⟩,
   hr.2.2.1 "f" (dir_entry.mk 0 "f" 0) (inode.mk 0 [-1, -1, -1, -1] 0 false) (by rfl) (by rfl)
     (Or.inl rfl),
   hr.2.2.2 "f" one_reader 0 (by rfl) (by decide)⟩

/-- The sessions of the state of the witness: `g` (inode 1) has one writer and
no reader, `f` (inode 0) has one reader and no writer; and on `two_files` two
read-only opens of `f` are admitted and return descriptors 0 and 1. -/
theorem reader_and_writer_sessions :
    writers demo reader_and_writer [1, 0] 1 = 1 ∧ readers demo reader_and_writer [1, 0] 1 = 0 ∧
    writers demo reader_and_writer [1, 0] 0 = 0 ∧ readers demo reader_and_writer [1, 0] 0 = 1 ∧
    ((RSFS_open demo two_files "f" demo.RSFS_RDONLY).bind fun a =>
      (RSFS_open demo a.1 "f" demo.RSFS_RDONLY).map fun b => (a.2, b.2)) = .ok (0, 1) := by
  refine ⟨by rfl, by rfl, by rfl, by rfl, by rfl⟩

/-! ## A lock that no session holds -/

/-- The state `leaked_lock` is reached from the engine with the files `f` and
`g` by two read-only opens of `f`, a read-write open of `g` that returns -1,
and the two closes. -/
theorem leaked_lock_reachable : Reach demo zero_heap ["f", "g"] leaked_lock [] :=
  have h0 : Reach demo zero_heap ["f", "g"] two_files [] := Reach.start
  have h1 : Reach demo zero_heap ["f", "g"] one_reader [0] :=
    Reach.opened _ _ _ "f" 0 0 h0 (by rfl) (by decide)
  have h2 : Reach demo zero_heap ["f", "g"] two_readers [1, 0] :=
    Reach.opened _ _ _ "f" 0 1 h1 (by rfl) (by decide)
  have h3 : Reach demo zero_heap ["f", "g"]
      (store_inode two_readers 1 (inode.mk 0 [-1, -1, -1, -1] 0 true)) [1, 0] :=
    Reach.refused _ _ _ "g" 1 (-1) h2 (by rfl) (by decide)
  have h4 : Reach demo zero_heap ["f", "g"]
      (free_open_file_entry (store_inode (store_inode two_readers 1
        (inode.mk 0 [-1, -1, -1, -1] 0 true)) 0 (inode.mk 0 [-1, -1, -1, -1] 1 true)) 0) [1] :=
    Reach.closed _ _ [1, 0] 0 0 h3 (by decide) (by rfl)
  Reach.closed _ _ [1] 1 0 h4 (by decide) (by rfl)

/-- Claim C12, readers-writers exclusion at session granularity with two
read-only opens of the same file both enabled, fails on the code in its second
half: from the engine with the files `f` and `g`, two read-only opens of `f`
return descriptors 0 and 1 and fill the table, a read-write open of `g` takes
the lock of `g` and returns -1, and the two closes return 0.  The state reached
has no open descriptor, both slots unused, reader count 0 on `g` and no
read-write session on any inode, yet the lock of `g` is held, so a read-only
open of `g` waits, and so does a read-write open; a read-only open of `f` is
admitted. -/
theorem leaked_lock_disables_read_only_opens :
    Reach demo zero_heap ["f", "g"] leaked_lock [] ∧
    ((RSFS_open demo two_files "f" demo.RSFS_RDONLY).bind fun a =>
      (RSFS_open demo a.1 "f" demo.RSFS_RDONLY).bind fun b =>
        (RSFS_open demo b.1 "g" demo.RSFS_RDWR).bind fun o =>
          (RSFS_close demo o.1 0).bind fun c =>
            (RSFS_close demo c.1 1).map fun d => ([a.2, b.2, o.2, c.2, d.2], d.1))
      = .ok ([0, 1, -1, 0, 0], leaked_lock) ∧
    leaked_lock.open_file_table.map (fun e => e.used) = [0, 0] ∧
    (∀ i, writers demo leaked_lock [] i = 0 ∧ readers demo leaked_lock [] i = 0) ∧
    (inode_of leaked_lock "g").map (fun node => (node.num_current_reader, node.rw_mutex))
      = some (0, true) ∧
    RSFS_open demo leaked_lock "g" demo.RSFS_RDONLY = .error .would_block ∧
    RSFS_open demo leaked_lock "g" demo.RSFS_RDWR = .error .would_block ∧
    (RSFS_open demo leaked_lock "f" demo.RSFS_RDONLY).map (fun o => o.2) = .ok 0 := by
  refine ⟨leaked_lock_reachable, by rfl, by rfl, fun i => ⟨rfl, rfl⟩, by rfl, by rfl, by rfl,
    by rfl⟩

/-! ## The defects for every engine -/

/-- The defect behind claim C11 for every engine: when no open-file slot is
unused and the caller is admitted, `RSFS_open` returns -1 and the state it
leaves has the inode of the file in its admitted form, which differs from the
inode before the call. -/
theorem open_with_full_table (cfg : Config) (st : State) (file_name : String)
    (access_flag : Int) (dir : dir_entry) (node node1 : inode)
    (hvalid : access_flag = cfg.RSFS_RDONLY ∨ access_flag = cfg.RSFS_RDWR)
    (hs : search_dir st file_name = some dir)
    (hnode : load_inode st dir.inode_number = .ok node)
    (hacq : acquire cfg access_flag node = some node1)
    (hfull : find_unused st.open_file_table = none) :
    RSFS_open cfg st file_name access_flag = .ok (store_inode st dir.inode_number node1, -1) ∧
    load_inode (store_inode st dir.inode_number node1) dir.inode_number = .ok node1 ∧
    (node1.num_current_reader, node1.rw_mutex) ≠ (node.num_current_reader, node.rw_mutex) := by
  have hv : ¬ (access_flag ≠ cfg.RSFS_RDONLY ∧ access_flag ≠ cfg.RSFS_RDWR) := by
    intro h
    rcases hvalid with h1 | h1
    · exact h.1 h1
    · exact h.2 h1
  refine ⟨?_, ?_, ?_⟩
  · rw [RSFS_open_eq]
    simp only [hv, if_false, hs, hnode, hacq]
    unfold allocate_open_file_entry
    have : (store_inode st dir.inode_number node1).open_file_table = st.open_file_table := rfl
    rw [this, hfull]
  · rw [load_inode_some]
    exact getAt_setAt_self _ _ _ _ ((load_inode_some _ _ _).1 hnode)
  · unfold acquire at hacq
    intro heq
    simp only [Prod.mk.injEq] at heq
    by_cases h1 : access_flag = cfg.RSFS_RDONLY
    · simp only [h1, if_true] at hacq
      by_cases h2 : node.num_current_reader + 1 = 1
      · simp only [h2, if_true] at hacq
        cases h3 : node.rw_mutex with
        | true => simp [h3] at hacq
        | false =>
          simp only [h3, Bool.false_eq_true, if_false, Option.some.injEq] at hacq
          subst hacq
          simp [h3] at heq
      · simp only [h2, if_false, Option.some.injEq] at hacq
        subst hacq
        simp at heq
    · simp only [h1, if_false] at hacq
      cases h3 : node.rw_mutex with
      | true => simp [h3] at hacq
      | false =>
        simp only [h3, Bool.false_eq_true, if_false, Option.some.injEq] at hacq
        subst hacq
        simp [h3] at heq

/-- The defect behind claim C13 for every engine: `RSFS_delete` of a file of
length 0 whose pointer 0 is unused wipes `data_blocks[-1]`. -/
theorem RSFS_delete_empty_file (cfg : Config) (st : State) (file_name : String)
    (dir : dir_entry) (node : inode)
    (hs : search_dir st file_name = some dir)
    (hnode : load_inode st dir.inode_number = .ok node)
    (hlen : node.length = 0) (hptr : load_pointer node 0 = .ok (-1)) :
    RSFS_delete cfg st file_name = .error (.block_index (-1)) := by
  unfold RSFS_delete
  simp only [hs, bind, Except.bind, hnode, hlen, Int.zero_tdiv, zero_add]
  have h1 : (List.range (1 : Int).toNat) = [0] := by decide
  rw [h1]
  simp only [delete_loop, delete_body, bind, Except.bind, hnode]
  have hp : load_pointer node ((0 : Nat) : Int) = .ok (-1) := hptr
  rw [hp]
  simp only [block_zero]
  have hneg : ¬ ((cfg.BLOCK_SIZE : Int) < 0) := by omega
  simp only [hneg, if_false, block_store]
  have hg : getAt st.data_blocks (-1) = none := by
    unfold getAt
    simp
  rw [hg]

/-- The defect behind claims C6 and C18 for every engine: with the cursor at
the end of a file of positive length whose last block is in use (the length is
not a multiple of BLOCK_SIZE), `RSFS_read` of any positive size repeats an
iteration that copies 0 bytes and returns for no fuel. -/
theorem RSFS_read_at_end (cfg : Config) (st : State) (fd size : Int)
    (entry : open_file_entry) (d : dir_entry) (node : inode) (b : Int) (blk : List Nat)
    (hfd : 0 ≤ fd ∧ fd < cfg.NUM_OPEN_FILE) (hsize : 0 < size)
    (hB : 0 < cfg.BLOCK_SIZE)
    (hentry : load_entry st fd = .ok entry)
    (hdir : deref_dir st entry.dir_entry = .ok d)
    (hnode : load_inode st d.inode_number = .ok node)
    (hpos : entry.position = node.length) (hlen : 0 < node.length)
    (hptr : load_pointer node (node.length.tdiv cfg.BLOCK_SIZE) = .ok b) (hb : b ≠ -1)
    (hblk : getAt st.data_blocks b = some blk)
    (hoff : node.length.tmod cfg.BLOCK_SIZE ≤ blk.length) :
    ∀ fuel, RSFS_read cfg fuel st fd size = .error .out_of_fuel := by
  intro fuel
  have hchk : ¬ (fd < 0 ∨ fd ≥ (cfg.NUM_OPEN_FILE : Int) ∨ size ≤ 0) := by omega
  have hoff0 : 0 ≤ node.length.tmod cfg.BLOCK_SIZE :=
    Int.tmod_nonneg _ (by omega)
  have hofflt : node.length.tmod cfg.BLOCK_SIZE < cfg.BLOCK_SIZE :=
    Int.tmod_lt_of_pos _ (by omega)
  have hbody : read_body cfg st node size
      { out := [], current_position := node.length, bytes_read := 0, stopped := false }
      = .ok { out := [], current_position := node.length, bytes_read := 0, stopped := false } := by
    simp only [read_body, bind, Except.bind, hptr, hb, if_false, sub_zero, sub_self]
    have hn1 : (if size > (cfg.BLOCK_SIZE : Int) - node.length.tmod cfg.BLOCK_SIZE
        then (cfg.BLOCK_SIZE : Int) - node.length.tmod cfg.BLOCK_SIZE else size) > 0 := by
      split <;> omega
    simp only [hn1, if_true, block_load, hblk]
    have hc : ¬ (node.length.tmod cfg.BLOCK_SIZE < 0 ∨ (0 : Int) < 0 ∨
        (blk.length : Int) < node.length.tmod cfg.BLOCK_SIZE + 0) := by omega
    simp only [hc, if_false]
    simp [pure, Except.pure]
  have hstuck := while_loop_stuck
    (fun v : read_vars => v.stopped = false ∧ v.bytes_read < size ∧ v.bytes_read < node.length)
    (read_body cfg st node size)
    { out := [], current_position := node.length, bytes_read := 0, stopped := false }
    ⟨rfl, hsize, hlen⟩ hbody fuel
  unfold RSFS_read
  simp only [hchk, if_false, bind, Except.bind, hentry, hdir, hnode, read_loop, hpos, hstuck]

theorem RSFS_read_at_end_demo :
    ∀ fuel, RSFS_read demo fuel (hello_rw 11) 0 3 = .error .out_of_fuel :=
  RSFS_read_at_end demo (hello_rw 11) 0 3
    { used := 1, dir_entry := some 0, position := 11, access_flag := 1 }
    { addr := 0, name := "f", inode_number := 0 }
    { length := 11, block := [0, 1, 2, -1], num_current_reader := 0, rw_mutex := true }
    2 [82, 76, 68, 0] (by decide) (by decide) (by decide) (by rfl) (by rfl) (by rfl) (by rfl)
    (by decide) (by rfl) (by decide) (by rfl) (by decide)

theorem RSFS_delete_empty_file_demo :
    RSFS_delete demo two_files "g" = .error (.block_index (-1)) :=
  RSFS_delete_empty_file demo two_files "g" { addr := 1, name := "g", inode_number := 1 }
    { length := 0, block := [-1, -1, -1, -1], num_current_reader := 0, rw_mutex := false }
    (by rfl) (by rfl) (by rfl) (by rfl)

theorem open_with_full_table_demo :
    RSFS_open demo two_readers "g" 1
      = .ok (store_inode two_readers 1
          { length := 0, block := [-1, -1, -1, -1], num_current_reader := 0, rw_mutex := true },
          -1) :=
  (open_with_full_table demo two_readers "g" 1 { addr := 1, name := "g", inode_number := 1 }
    { length := 0, block := [-1, -1, -1, -1], num_current_reader := 0, rw_mutex := false }
    { length := 0, block := [-1, -1, -1, -1], num_current_reader := 0, rw_mutex := true }
    (by decide) (by rfl) (by rfl) (by rfl) (by rfl)).1

/-! ## What `RSFS_delete` does to the directory when its loop passes -/

theorem delete_body_frame (cfg : Config) (ino : Int) (st st1 : State) (i : Nat)
    (h : delete_body cfg ino st i = .ok st1) :
    st1.root_dir = st.root_dir ∧ st1.inode_bitmap = st.inode_bitmap ∧
    st1.inodes = st.inodes ∧ st1.open_file_table = st.open_file_table := by
  unfold delete_body at h
  simp only [bind, Except.bind] at h
  cases hn : load_inode st ino with
  | error e => simp [hn] at h
  | ok node =>
    simp only [hn] at h
    cases hp : load_pointer node i with
    | error e => simp [hp] at h
    | ok b =>
      simp only [hp] at h
      cases hz : block_zero st b 0 cfg.BLOCK_SIZE with
      | error e => simp [hz] at h
      | ok s1 =>
        simp only [hz] at h
        have hs1 : s1.root_dir = st.root_dir ∧ s1.inode_bitmap = st.inode_bitmap ∧
            s1.inodes = st.inodes ∧ s1.open_file_table = st.open_file_table := by
          unfold block_zero block_store at hz
          split at hz
          · cases hz
          · split at hz
            · cases hz
            · split at hz
              · cases hz
              · simp only [Except.ok.injEq] at hz
                subst hz
                exact ⟨rfl, rfl, rfl, rfl⟩
        unfold free_data_block at h
        split at h
        · simp only [Except.ok.injEq] at h
          subst h
          exact hs1
        · cases h

theorem delete_loop_frame (cfg : Config) (ino : Int) (is : List Nat) :
    ∀ st st1 : State, delete_loop cfg ino is st = .ok st1 →
      st1.root_dir = st.root_dir ∧ st1.inode_bitmap = st.inode_bitmap ∧
      st1.inodes = st.inodes ∧ st1.open_file_table = st.open_file_table := by
  induction is with
  | nil =>
    intro st st1 h
    simp only [delete_loop, Except.ok.injEq] at h
    subst h
    exact ⟨rfl, rfl, rfl, rfl⟩
  | cons i rest ih =>
    intro st st1 h
    simp only [delete_loop, Except.bind] at h
    cases hb : delete_body cfg ino st i with
    | error e => simp [hb] at h
    | ok s1 =>
      simp only [hb] at h
      obtain ⟨a1, a2, a3, a4⟩ := delete_body_frame cfg ino st s1 i hb
      obtain ⟨b1, b2, b3, b4⟩ := ih s1 st1 h
      exact ⟨b1.trans a1, b2.trans a2, b3.trans a3, b4.trans a4⟩

theorem find_eraseP_other (l : List dir_entry) (n n1 : String) (h : n1 ≠ n) :
    (l.eraseP (fun d => d.name == n)).find? (fun d => d.name == n1)
      = l.find? (fun d => d.name == n1) := by
  induction l with
  | nil => rfl
  | cons a as ih =>
    by_cases ha : a.name = n
    · have h1 : (a.name == n) = true := by simpa using ha
      have h2 : (a.name == n1) = false := by
        simp only [beq_eq_false_iff_ne, ne_eq]
        rw [ha]
        exact fun e => h e.symm
      rw [List.eraseP_cons, List.find?_cons, h2]
      simp only [h1, cond_true]
    · have h1 : (a.name == n) = false := by simpa using ha
      rw [List.eraseP_cons]
      simp only [h1, cond_false, List.find?_cons, ih]

theorem find_eraseP_self (l : List dir_entry) (n : String)
    (hnd : (l.map (fun d => d.name)).Nodup) :
    (l.eraseP (fun d => d.name == n)).find? (fun d => d.name == n) = none := by
  induction l with
  | nil => rfl
  | cons a as ih =>
    rw [List.map_cons, List.nodup_cons] at hnd
    by_cases ha : a.name = n
    · have h1 : (a.name == n) = true := by simpa using ha
      rw [List.eraseP_cons]
      simp only [h1, cond_true]
      rw [List.find?_eq_none]
      intro d hd
      simp only [beq_iff_eq]
      intro hdn
      apply hnd.1
      rw [ha, ← hdn]
      exact List.mem_map_of_mem (fun d => d.name) hd
    · have h2 : (a.name == n) = false := by simpa using ha
      rw [List.eraseP_cons]
      simp only [h2, cond_false, List.find?_cons]
      exact ih hnd.2

/-- When the loop of `RSFS_delete` passes (it does not for a length that is 0
or a multiple of BLOCK_SIZE), the call returns 0, a search for the name finds
nothing, the bit of the inode is clear, every other name is found as before,
and the directory is the old one without the entry, in the old order. -/
theorem RSFS_delete_directory_effect (cfg : Config) (st st1 : State) (file_name : String)
    (dir : dir_entry) (node : inode) (bit : Int)
    (hs : search_dir st file_name = some dir)
    (hnode : load_inode st dir.inode_number = .ok node)
    (hloop : delete_loop cfg dir.inode_number
      (List.range (node.length.tdiv cfg.BLOCK_SIZE + 1).toNat) st = .ok st1)
    (hbit : getAt st.inode_bitmap dir.inode_number = some bit)
    (huniq : names_unique st) :
    ∃ st2, RSFS_delete cfg st file_name = .ok (st2, 0) ∧
      search_dir st2 file_name = none ∧
      getAt st2.inode_bitmap dir.inode_number = some 0 ∧
      (∀ other, other ≠ file_name → search_dir st2 other = search_dir st other) ∧
      st2.root_dir = st.root_dir.eraseP (fun d => d.name == file_name) ∧
      List.Sublist st2.root_dir st.root_dir := by
  obtain ⟨f1, f2, _, _⟩ := delete_loop_frame cfg _ _ st st1 hloop
  have hbit1 : getAt st1.inode_bitmap dir.inode_number = some bit := by rw [f2]; exact hbit
  refine ⟨delete_dir { st1 with inode_bitmap := setAt st1.inode_bitmap dir.inode_number 0 }
    file_name, ?_, ?_, ?_, ?_, ?_, ?_⟩
  · unfold RSFS_delete
    simp only [hs, bind, Except.bind, hnode, hloop, free_inode, hbit1, pure, Except.pure]
  · unfold search_dir delete_dir
    simp only [f1]
    exact find_eraseP_self _ _ huniq
  · unfold delete_dir
    exact getAt_setAt_self _ _ _ _ hbit1
  · intro other hne
    unfold search_dir delete_dir
    simp only [f1]
    exact find_eraseP_other _ _ _ hne
  · unfold delete_dir
    simp only [f1]
  · unfold delete_dir
    simp only [f1]
    exact List.eraseP_sublist _

theorem RSFS_delete_directory_effect_demo :
    ∃ st2, RSFS_delete demo (ten_A 0) "f" = .ok (st2, 0) ∧
      search_dir st2 "f" = none ∧
      getAt st2.inode_bitmap 0 = some 0 ∧
      (∀ other, other ≠ "f" → search_dir st2 other = search_dir (ten_A 0) other) ∧
      st2.root_dir = (ten_A 0).root_dir.eraseP (fun d => d.name == "f") ∧
      List.Sublist st2.root_dir (ten_A 0).root_dir :=
  RSFS_delete_directory_effect demo (ten_A 0) _ "f" { addr := 0, name := "f", inode_number := 0 }
    { length := 10, block := [0, 1, 2, -1], num_current_reader := 0, rw_mutex := true } 1
    (by rfl) (by rfl) (by rfl) (by rfl) (by unfold names_unique; decide)


/-! ## Creation after a failure and after a deletion, for every engine -/

/-- A call of `RSFS_create` that finds no free inode returns -2 and leaves the
entry that it inserted: a search for the name finds it, and a second call for
the same name returns -1. -/
theorem RSFS_create_failed_keeps_the_entry (st : State) (file_name : String)
    (h : search_dir st file_name = none) (hi : find_clear st.inode_bitmap = none) :
    (RSFS_create st file_name).2 = -2 ∧
    (search_dir (RSFS_create st file_name).1 file_name).map (fun d => d.name)
      = some file_name ∧
    (RSFS_create st file_name).1.root_dir
      = st.root_dir ++ [{ addr := st.next_addr, name := file_name, inode_number := -1 }] ∧
    RSFS_create (RSFS_create st file_name).1 file_name = ((RSFS_create st file_name).1, -1) := by
  rw [RSFS_create_none st file_name h hi]
  have hfound : search_dir (insert_dir st file_name).1 file_name
      = some { addr := st.next_addr, name := file_name, inode_number := -1 } := by
    unfold search_dir at h ⊢
    simp only [insert_dir, List.find?_append, h, Option.none_or, List.find?_cons, beq_self_eq_true]
  refine ⟨rfl, ?_, rfl, ?_⟩
  · rw [hfound]
    rfl
  · simp only [RSFS_create, hfound]

theorem RSFS_create_failed_keeps_the_entry_demo :
    (RSFS_create inodes_exhausted "c").2 = -2 ∧
    (search_dir (RSFS_create inodes_exhausted "c").1 "c").map (fun d => d.name) = some "c" ∧
    (RSFS_create inodes_exhausted "c").1.root_dir
      = inodes_exhausted.root_dir ++
          [{ addr := inodes_exhausted.next_addr, name := "c", inode_number := -1 }] ∧
    RSFS_create (RSFS_create inodes_exhausted "c").1 "c"
      = ((RSFS_create inodes_exhausted "c").1, -1) :=
  RSFS_create_failed_keeps_the_entry inodes_exhausted "c" (by rfl) (by rfl)

/-- `RSFS_create` writes no inode. -/
theorem RSFS_create_keeps_inodes (st : State) (file_name : String) :
    (RSFS_create st file_name).1.inodes = st.inodes := by
  unfold RSFS_create
  cases hs : search_dir st file_name with
  | some d => rfl
  | none =>
    simp only [insert_dir, allocate_inode]
    cases hfc : find_clear st.inode_bitmap with
    | none => rfl
    | some i =>
      simp only
      split <;> rfl

/-- `RSFS_delete` writes no inode: the length and the pointers of the file stay
in the slot that it releases. -/
theorem RSFS_delete_keeps_inodes (cfg : Config) (st st2 : State) (file_name : String) (r : Int)
    (h : RSFS_delete cfg st file_name = .ok (st2, r)) : st2.inodes = st.inodes := by
  unfold RSFS_delete at h
  cases hs : search_dir st file_name with
  | none => simp [hs] at h
  | some dir =>
    simp only [hs, bind, Except.bind] at h
    cases hn : load_inode st dir.inode_number with
    | error e => simp [hn] at h
    | ok node =>
      simp only [hn] at h
      cases hl : delete_loop cfg dir.inode_number
          (List.range (node.length.tdiv cfg.BLOCK_SIZE + 1).toNat) st with
      | error e => simp [hl] at h
      | ok st1 =>
        simp only [hl] at h
        obtain ⟨_, _, f3, _⟩ := delete_loop_frame cfg _ _ st st1 hl
        cases hb : getAt st1.inode_bitmap dir.inode_number with
        | none => simp [free_inode, hb] at h
        | some bit =>
          simp only [free_inode, hb, pure, Except.pure, Except.ok.injEq, Prod.mk.injEq] at h
          obtain ⟨h1, _⟩ := h
          subst h1
          exact f3

/-- A call of `RSFS_create` that returns 0 binds the name to the first free
inode slot with the record that the slot held before the call. -/
theorem RSFS_create_takes_the_slot_as_it_is (st : State) (file_name : String) (i : Nat)
    (h : search_dir st file_name = none) (hi : find_clear st.inode_bitmap = some i) :
    (RSFS_create st file_name).2 = 0 ∧
    inode_of (RSFS_create st file_name).1 file_name = getAt st.inodes i := by
  rw [RSFS_create_some st file_name i h hi]
  refine ⟨rfl, ?_⟩
  unfold inode_of
  rw [search_dir_after_create st file_name i _ h]
  rfl

theorem RSFS_create_takes_the_slot_as_it_is_demo :
    (RSFS_create (RSFS_init demo zero_heap) "f").2 = 0 ∧
    inode_of (RSFS_create (RSFS_init demo zero_heap) "f").1 "f"
      = getAt (RSFS_init demo zero_heap).inodes (0 : Nat) :=
  RSFS_create_takes_the_slot_as_it_is (RSFS_init demo zero_heap) "f" 0 (by rfl) (by rfl)

theorem RSFS_delete_keeps_inodes_demo :
    ∀ st2 r, RSFS_delete demo (ten_A 0) "f" = .ok (st2, r) → st2.inodes = (ten_A 0).inodes :=
  fun st2 r h => RSFS_delete_keeps_inodes demo (ten_A 0) st2 "f" r h

/-! ## Claims about creation after a failure and after a deletion -/

/-- Claim C21, a failed create is atomic, fails on the code: with both inodes of
the demo engine taken by `a` and `b`, a search for "c" finds nothing,
`RSFS_create("c")` returns -2, and the entry that `insert_dir` appended before
`allocate_inode` was called stays, so the directory now lists `a`, `b`, `c` and
a search for "c" finds an entry.  Once the inode of `a` has been released
(open, write 1 byte, close, `RSFS_delete("a")`, all returning normally, inode 0
free), `RSFS_create("c")` returns -1; the same calls without the failed create
end in a `RSFS_create("c")` that returns 0. -/
theorem failed_create_leaves_the_entry :
    inodes_exhausted.inode_bitmap = [1, 1] ∧
    search_dir inodes_exhausted "c" = none ∧
    (RSFS_create inodes_exhausted "c").2 = -2 ∧
    (search_dir after_failed_create "c").map (fun d => d.name) = some "c" ∧
    inodes_exhausted.root_dir.map (fun d => d.name) = ["a", "b"] ∧
    after_failed_create.root_dir.map (fun d => d.name) = ["a", "b", "c"] ∧
    (release_a after_failed_create).map
        (fun r => (r.1, find_clear r.2.inode_bitmap, (RSFS_create r.2 "c").2))
      = .ok ([0, 1, 0, 0], some 0, -1) ∧
    (release_a inodes_exhausted).map
        (fun r => (r.1, find_clear r.2.inode_bitmap, (RSFS_create r.2 "c").2))
      = .ok ([0, 1, 0, 0], some 0, 0) := by
  refine ⟨by rfl, by rfl, by rfl, by rfl, by rfl, by rfl, by rfl, by rfl⟩

/-- Claim C22, a newly created file is empty, fails on the code when the inode
slot is reused: file `f` holds 10 bytes in blocks 0, 1, 2 (inode 0); after
`RSFS_close(0)`, `RSFS_delete("f")` and `RSFS_create("g")`, which all return 0,
`g` is bound to inode 0, whose length is still 10 and whose pointers are still
0, 1, 2, -1, while the bitmap shows every block free; a read of 10 bytes from
the new file returns 10 bytes. -/
theorem created_file_inherits_the_deleted_file :
    RSFS_write demo 3 fresh_rw 0 (List.replicate 10 65) 10 = .ok (ten_A 10, 10) ∧
    recreate_run.map
        (fun r => (r.1, (search_dir r.2 "g").map (fun d => d.inode_number),
          (inode_of r.2 "g").map (fun node => (node.length, node.block)), r.2.data_bitmap))
      = .ok ([0, 0, 0], some 0, some (10, [0, 1, 2, -1]), [0, 0, 0, 0, 0, 0, 0, 0]) ∧
    (recreate_run.bind fun r =>
      (RSFS_open demo r.2 "g" demo.RSFS_RDONLY).bind fun o =>
        (RSFS_read demo 3 o.1 o.2 10).map fun x => (o.2, x.2))
      = .ok (0, 10, List.replicate 10 0) := by
  refine ⟨by rfl, by rfl, by rfl⟩

end RSFS
